import Mathlib

/-! kube-score scorecard: a shallow embedding of `scorecard/scorecard.go`

The Go package keeps a registry (`Scorecard`, a map from a resource key to a
pointer to a `ScoredObject`) and, per resource, an append-only list of check
outcomes (`TestScore`).  The embedding below follows the source declaration by
declaration:

* Go strings are Lean strings, `+` on strings is `++`;
* `Grade` is a Go `int`; only comparisons are used, so it is an `Int`;
* a Go map with string keys is an association list with at most one entry per
  key (`GoMap`); the order of the list is not observable through `get?`, and
  iteration over a map is modelled by quantifying over every permutation of
  its entries;
* a `*ScoredObject` is an address (`Ptr`) into the list of allocated objects
  of a `World`; dereferencing an address that is not allocated is the Go nil
  pointer panic and is modelled by `none`;
* a function that can panic returns an `Option`.
-/

namespace KubeScore

/-! ## Go maps with string keys -/

/-- A Go `map[string]α`: association list, one entry per key. -/
abbrev GoMap (α : Type) := List (String × α)

/-- The Go lookup `v, ok := m[key]`. -/
def GoMap.get? {α : Type} : GoMap α → String → Option α
  | [], _ => none
  | (k, v) :: m, key => if k = key then some v else GoMap.get? m key

/-- The Go store `m[key] = v`: overwrites the entry of `key` when there is one. -/
def GoMap.set {α : Type} : GoMap α → String → α → GoMap α
  | [], key, v => [(key, v)]
  | (k, x) :: m, key, v => if k = key then (k, v) :: m else (k, x) :: GoMap.set m key v

/-! ## The parts of the Go standard library that the package calls -/

/-- Go `unicode.IsSpace`: the Unicode White_Space code points. -/
def isSpace (c : Char) : Bool :=
  let n := c.toNat
  (0x09 ≤ n && n ≤ 0x0D) || n == 0x20 || n == 0x85 || n == 0xA0 || n == 0x1680 ||
  (0x2000 ≤ n && n ≤ 0x200A) || n == 0x2028 || n == 0x2029 || n == 0x202F ||
  n == 0x205F || n == 0x3000

/-- Go `strings.TrimSpace`: drops the leading and the trailing white space. -/
def TrimSpace (s : String) : String :=
  ⟨((s.data.dropWhile isSpace).reverse.dropWhile isSpace).reverse⟩

/-- Pieces of a character list between occurrences of `sep`; always at least
one piece. -/
def splitChars (sep : Char) : List Char → List (List Char)
  | [] => [[]]
  | c :: cs =>
    if c = sep then [] :: splitChars sep cs
    else
      match splitChars sep cs with
      | [] => [[c]]
      | piece :: rest => (c :: piece) :: rest

/-- Go `strings.Split(s, sep)` for a one-character separator: all substrings
of `s` between separators; `[s]` when `s` holds no separator. -/
def Split (s : String) (sep : Char) : List String :=
  (splitChars sep s.data).map String.mk

/-! ## Types declared outside the package -/

/-- Kubernetes `metav1.TypeMeta`. -/
structure TypeMeta where
  Kind : String
  APIVersion : String
  deriving DecidableEq, Repr

/-- Kubernetes `metav1.ObjectMeta`; of the fields that the package never reads
only `GenerateName` and `Labels` are kept, as the rest of the metadata. -/
structure ObjectMeta where
  Name : String
  GenerateName : String
  Namespace : String
  Labels : GoMap String
  Annotations : GoMap String
  deriving DecidableEq, Repr

/-- Modelled from the spec: the declaration of `domain.Check` is not among the
sources; the spec describes a check reference as an id plus human-readable
fields.  The package reads only `ID`. -/
structure Check where
  Name : String
  ID : String
  Comment : String
  deriving DecidableEq, Repr

/-! ## Grades -/

/-- Go `type Grade int`. -/
abbrev Grade := Int

def GradeCritical : Grade := 1
def GradeWarning : Grade := 5
def GradeAlmostOK : Grade := 7
def GradeAllOK : Grade := 10

/-- The color attributes of `github.com/fatih/color` that the package returns. -/
inductive ColorAttribute where
  | FgRed
  | FgGreen
  | FgYellow
  deriving DecidableEq, Repr

/-- Method `func (g Grade) Emoji() string`; `none` is the panic of the default case. -/
def Grade.Emoji (g : Grade) : Option String :=
  if g = GradeCritical then some "💥"
  else if g = GradeWarning then some "⚠️"
  else if g = GradeAlmostOK then some "🔊"
  else if g = GradeAllOK then some "💚"
  else none

/-- Method `func (g Grade) Color() color.Attribute`; `none` is the panic of the
default case. -/
def Grade.Color (g : Grade) : Option ColorAttribute :=
  if g = GradeCritical then some ColorAttribute.FgRed
  else if g = GradeWarning then some ColorAttribute.FgYellow
  else if g = GradeAlmostOK then some ColorAttribute.FgYellow
  else if g = GradeAllOK then some ColorAttribute.FgGreen
  else none

/-- Method `func (g Grade) String() string`; `none` is the panic of the default case. -/
def Grade.String (g : Grade) : Option String :=
  if g = GradeCritical then some "CRITICAL"
  else if g = GradeWarning then some "WARNING"
  else if g = GradeAlmostOK then some "~ OK"
  else if g = GradeAllOK then some "OK"
  else none

/-! ## Check outcomes -/

structure TestScoreComment where
  Path : String
  Summary : String
  Description : String
  deriving DecidableEq, Repr

structure TestScore where
  Check : Check
  Grade : Grade
  Comments : List TestScoreComment
  MillenialComment : String
  deriving DecidableEq, Repr

/-- Method `func (ts *TestScore) AddComment(path, summary, description string)`. -/
def TestScore.AddComment (ts : TestScore) (path summary description : String) : TestScore :=
  { ts with
    Comments := ts.Comments ++
      [{ Path := path, Summary := summary, Description := description }] }

/-! ## Scored objects -/

def ignoredChecksAnnotation : String := "kube-score/ignore"

/-- The Go struct `ScoredObject`.  `ignoredChecks` is a `map[string]struct{}`,
used as a set of check IDs. -/
structure ScoredObject where
  TypeMeta : TypeMeta
  ObjectMeta : ObjectMeta
  Checks : List TestScore
  ignoredChecks : GoMap Unit
  deriving DecidableEq, Repr

namespace ScoredObject

/-- Method `func (so ScoredObject) AnyBelowOrEqualToGrade(threshold Grade) bool`: the
loop returns at the first outcome at or below the threshold. -/
def AnyBelowOrEqualToGrade (so : ScoredObject) (threshold : Grade) : Bool :=
  go so.Checks
where
  go : List TestScore → Bool
    | [] => false
    | s :: rest => if s.Grade ≤ threshold then true else go rest

/-- Method `func (so ScoredObject) Grade() Grade`: a loop that keeps the lowest grade
seen, starting from `GradeAllOK`. -/
def Grade (so : ScoredObject) : KubeScore.Grade :=
  so.Checks.foldl (fun lowest s => if s.Grade < lowest then s.Grade else lowest) GradeAllOK

/-- Method `func (so *ScoredObject) setIgnoredTests()`. -/
def setIgnoredTests (so : ScoredObject) : ScoredObject :=
  let ignoredMap : GoMap Unit :=
    match GoMap.get? so.ObjectMeta.Annotations ignoredChecksAnnotation with
    | some ignoredCSV =>
      (Split ignoredCSV ',').foldl
        (fun m ignored => GoMap.set m (TrimSpace ignored) ()) []
    | none => []
  { so with ignoredChecks := ignoredMap }

/-- Method `func (so ScoredObject) resourceRefKey() string`. -/
def resourceRefKey (so : ScoredObject) : String :=
  so.TypeMeta.Kind ++ "/" ++ so.TypeMeta.APIVersion ++ "/" ++ so.ObjectMeta.Namespace
    ++ "/" ++ so.ObjectMeta.Name

/-- Method `func (so ScoredObject) HumanFriendlyRef() string`. -/
def HumanFriendlyRef (so : ScoredObject) : String :=
  let s := so.ObjectMeta.Name
  let s := if so.ObjectMeta.Namespace ≠ "" then s ++ ("/" ++ so.ObjectMeta.Namespace) else s
  s ++ (" " ++ so.TypeMeta.APIVersion ++ "/" ++ so.TypeMeta.Kind)

/-- Method `func (so *ScoredObject) Add(ts TestScore, check ks.Check)`, as the new
value of the object the receiver points to. -/
def Add (so : ScoredObject) (ts : TestScore) (check : Check) : ScoredObject :=
  match GoMap.get? so.ignoredChecks check.ID with
  | some _ => so
  | none =>
    let ts := { ts with Check := check }
    { so with Checks := so.Checks ++ [ts] }

/-- A sequence of `Add` calls on one object, first call first. -/
def addAll (so : ScoredObject) (calls : List (TestScore × Check)) : ScoredObject :=
  calls.foldl (fun o c => o.Add c.1 c.2) so

end ScoredObject

/-! ## The registry -/

/-- A `*ScoredObject`: the index of the object among the allocated ones. -/
abbrev Ptr := Nat

/-- Go `type Scorecard map[string]*ScoredObject`. -/
abbrev Scorecard := GoMap Ptr

/-- Go `func New() Scorecard`. -/
def New : Scorecard := []

/-- The program state: the allocated `ScoredObject`s and the registry. -/
structure World where
  objects : List ScoredObject
  scorecard : Scorecard
  deriving DecidableEq, Repr

namespace World

/-- Dereference of a `*ScoredObject`; `none` for an address that holds no
object (the nil pointer of Go). -/
def deref (w : World) (p : Ptr) : Option ScoredObject := w.objects[p]?

/-- Method `func (s Scorecard) NewObject(typeMeta, objectMeta) *ScoredObject`: the
returned pointer and the state after the call.  The object `o` built first is
allocated in `objects` only on the path that stores it in the map; on the
early return nothing refers to it. -/
def NewObject (w : World) (typeMeta : TypeMeta) (objectMeta : ObjectMeta) : Ptr × World :=
  let o : ScoredObject :=
    { TypeMeta := typeMeta, ObjectMeta := objectMeta, Checks := [], ignoredChecks := [] }
  match GoMap.get? w.scorecard o.resourceRefKey with
  | some object => (object, w)
  | none =>
    let o := o.setIgnoredTests
    let p : Ptr := w.objects.length
    (p, { objects := w.objects ++ [o], scorecard := GoMap.set w.scorecard o.resourceRefKey p })

/-- Method `Add` called through a pointer: the object at `p` is replaced by its new
value; `none` is the nil pointer panic. -/
def Add (w : World) (p : Ptr) (ts : TestScore) (check : Check) : Option World :=
  match w.deref p with
  | none => none
  | some so => some { w with objects := w.objects.set p (so.Add ts check) }

/-- A sequence of `Add` calls through the same pointer. -/
def addAll (w : World) (p : Ptr) : List (TestScore × Check) → Option World
  | [] => some w
  | c :: calls =>
    match w.Add p c.1 c.2 with
    | none => none
    | some w1 => addAll w1 p calls

/-- Method `func (s Scorecard) AnyBelowOrEqualToGrade(threshold Grade) bool`.  The
range loop visits the entries of the map in an order that Go leaves open:
`order` is the list of entries in the order of the visit.  Calling the method
of `ScoredObject` on a nil pointer panics (`none`). -/
def AnyBelowOrEqualToGrade (w : World) (order : List (String × Ptr)) (threshold : Grade) :
    Option Bool :=
  match order with
  | [] => some false
  | (_, o) :: rest =>
    match w.deref o with
    | none => none
    | some so =>
      if so.AnyBelowOrEqualToGrade threshold then some true
      else AnyBelowOrEqualToGrade w rest threshold

/-- The registry is well formed: every pointer it holds is allocated and no
pointer is stored under two keys. -/
def WF (w : World) : Prop :=
  (∀ k p, GoMap.get? w.scorecard k = some p → p < w.objects.length) ∧
  (∀ k1 k2 p, GoMap.get? w.scorecard k1 = some p → GoMap.get? w.scorecard k2 = some p → k1 = k2)

end World

/-- One call of the package by a client: a registration, or `Add` through a
pointer. -/
inductive Call where
  | newObject (typeMeta : TypeMeta) (objectMeta : ObjectMeta)
  | add (p : Ptr) (ts : TestScore) (check : Check)
  deriving DecidableEq, Repr

/-- The state after one call; `none` when the call panics. -/
def World.step (w : World) : Call → Option World
  | Call.newObject typeMeta objectMeta => some (w.NewObject typeMeta objectMeta).2
  | Call.add p ts check => w.Add p ts check

/-- The state after a sequence of calls, first call first. -/
def World.run (w : World) : List Call → Option World
  | [] => some w
  | c :: calls =>
    match w.step c with
    | none => none
    | some w1 => World.run w1 calls

/-- The state at process start: nothing allocated, `New()` as the registry. -/
def World.init : World := { objects := [], scorecard := New }

/-! ## Sample inputs -/

def exTypeMeta : TypeMeta := { Kind := "Deployment", APIVersion := "apps/v1" }

def exObjectMeta : ObjectMeta :=
  { Name := "web", GenerateName := "", Namespace := "default", Labels := [],
    Annotations := [("kube-score/ignore", "check-a, check-b")] }

def exCheck (id : String) : Check := { Name := "", ID := id, Comment := "" }

def exScore (g : Grade) : TestScore :=
  { Check := exCheck "", Grade := g, Comments := [], MillenialComment := "" }

/-- The scenario of the spec: a critical outcome of the ignored `check-a`, then
a warning of `check-c`. -/
def exCalls : List (TestScore × Check) :=
  [(exScore GradeCritical, exCheck "check-a"), (exScore GradeWarning, exCheck "check-c")]

/-- A record that ignores `check-a` and `check-b` and holds no outcome. -/
def exObject : ScoredObject :=
  { TypeMeta := exTypeMeta, ObjectMeta := exObjectMeta, Checks := [],
    ignoredChecks := [("check-a", ()), ("check-b", ())] }

/-- A registration followed by two `Add` calls; the second one passes an
outcome that already carries the ignored `check-a` as its check reference. -/
def exRun : List Call :=
  [Call.newObject exTypeMeta exObjectMeta,
   Call.add 0 (exScore GradeCritical) (exCheck "check-a"),
   Call.add 0 { exScore GradeWarning with Check := exCheck "check-a" } (exCheck "check-c")]

/-- The state after `exRun`. -/
def exWorld : World :=
  { objects := [{ exObject with
      Checks := [{ exScore GradeWarning with Check := exCheck "check-c" }] }],
    scorecard := [("Deployment/apps/v1/default/web", 0)] }

/-- The identity of `exObjectMeta` with other labels and another ignore list. -/
def exObjectMetaLater : ObjectMeta :=
  { Name := "web", GenerateName := "", Namespace := "default", Labels := [("app", "web")],
    Annotations := [("kube-score/ignore", "check-c")] }

/-- The resource `web` of `exObjectMeta` in the namespace `staging`. -/
def exObjectMetaStaging : ObjectMeta :=
  { Name := "web", GenerateName := "", Namespace := "staging", Labels := [],
    Annotations := [] }

/-- A kind that holds a slash: with the api-version `v1` it has the key of
`exTypeMeta`. -/
def exTypeMetaSlash : TypeMeta := { Kind := "Deployment/apps", APIVersion := "v1" }

/-- A registry of two records: `web` holds an almost-OK and an OK outcome,
`db` holds one critical outcome. -/
def exFleet : World :=
  { objects :=
      [{ exObject with
          Checks := [{ exScore GradeAlmostOK with Check := exCheck "check-c" },
                     { exScore GradeAllOK with Check := exCheck "check-d" }] },
       { TypeMeta := exTypeMeta, ObjectMeta := { exObjectMetaStaging with Name := "db" },
         Checks := [{ exScore GradeCritical with Check := exCheck "check-c" }],
         ignoredChecks := [] }],
    scorecard := [("Deployment/apps/v1/default/web", 0), ("Deployment/apps/v1/staging/db", 1)] }

/-- The resource of `exObjectMeta` with an empty ignore annotation. -/
def exObjectMetaEmptyIgnore : ObjectMeta :=
  { Name := "web", GenerateName := "", Namespace := "default", Labels := [],
    Annotations := [("kube-score/ignore", "")] }

/-- The running minimum that the spec allows in place of the loop of
`Grade()`: a stored grade, updated on every `Add` call that is not discarded
to the lower of the stored grade and the grade of the new outcome. -/
def runningMinimum (ignored : GoMap Unit) (start : Grade) (calls : List (TestScore × Check)) :
    Grade :=
  calls.foldl
    (fun lowest c =>
      match GoMap.get? ignored c.2.ID with
      | some _ => lowest
      | none => min lowest c.1.Grade)
    start

/-- A record with two outcomes, an almost-OK one and a warning. -/
def exScored : ScoredObject :=
  { exObject with
    Checks := [{ exScore GradeAlmostOK with Check := exCheck "check-c" },
               { exScore GradeWarning with Check := exCheck "check-d" }] }

/-! ## Go maps: lookup after store -/

theorem GoMap.get?_set_self {α : Type} (m : GoMap α) (k : String) (v : α) :
    GoMap.get? (GoMap.set m k v) k = some v := by
  induction m with
  | nil => simp [GoMap.set, GoMap.get?]
  | cons e m ih =>
    obtain ⟨k0, x⟩ := e
    by_cases h : k0 = k
    · simp [GoMap.set, GoMap.get?, h]
    · simp [GoMap.set, GoMap.get?, h, ih]

theorem GoMap.get?_set_other {α : Type} (m : GoMap α) (k k1 : String) (v : α) (h : k ≠ k1) :
    GoMap.get? (GoMap.set m k v) k1 = GoMap.get? m k1 := by
  induction m with
  | nil => simp [GoMap.set, GoMap.get?, h]
  | cons e m ih =>
    obtain ⟨k0, x⟩ := e
    by_cases h0 : k0 = k
    · subst h0
      simp [GoMap.set, GoMap.get?, h]
    · simp only [GoMap.set, h0, if_false, GoMap.get?, ih]

theorem GoMap.set_of_get?_none {α : Type} (m : GoMap α) (k : String) (v : α)
    (h : GoMap.get? m k = none) : GoMap.set m k v = m ++ [(k, v)] := by
  induction m with
  | nil => simp [GoMap.set]
  | cons e m ih =>
    obtain ⟨k0, x⟩ := e
    by_cases h0 : k0 = k
    · simp [GoMap.get?, h0] at h
    · simp only [GoMap.get?, h0, if_false] at h
      simp [GoMap.set, h0, ih h]

/-! ## `Add` on one object -/

theorem ScoredObject.Add_of_ignored (so : ScoredObject) (ts : TestScore) (check : Check)
    (h : GoMap.get? so.ignoredChecks check.ID = some ()) : so.Add ts check = so := by
  simp [ScoredObject.Add, h]

theorem ScoredObject.Add_of_not_ignored (so : ScoredObject) (ts : TestScore) (check : Check)
    (h : GoMap.get? so.ignoredChecks check.ID = none) :
    so.Add ts check = { so with Checks := so.Checks ++ [{ ts with Check := check }] } := by
  simp [ScoredObject.Add, h]

theorem ScoredObject.Add_ignoredChecks (so : ScoredObject) (ts : TestScore) (check : Check) :
    (so.Add ts check).ignoredChecks = so.ignoredChecks := by
  unfold ScoredObject.Add
  split <;> rfl

theorem ScoredObject.addAll_ignoredChecks (so : ScoredObject) (calls : List (TestScore × Check)) :
    (so.addAll calls).ignoredChecks = so.ignoredChecks := by
  induction calls generalizing so with
  | nil => rfl
  | cons c calls ih =>
    simp only [ScoredObject.addAll, List.foldl_cons] at ih ⊢
    rw [ih, ScoredObject.Add_ignoredChecks]

theorem ScoredObject.addAll_cons (so : ScoredObject) (c : TestScore × Check)
    (calls : List (TestScore × Check)) :
    so.addAll (c :: calls) = (so.Add c.1 c.2).addAll calls := rfl

theorem ScoredObject.addAll_append (so : ScoredObject) (xs ys : List (TestScore × Check)) :
    so.addAll (xs ++ ys) = (so.addAll xs).addAll ys := by
  simp [ScoredObject.addAll, List.foldl_append]

/-- The outcome list after a sequence of `Add` calls: the calls whose check is
not ignored, in call order, each stored with the supplied check. -/
theorem ScoredObject.addAll_Checks (so : ScoredObject) (calls : List (TestScore × Check)) :
    (so.addAll calls).Checks =
      so.Checks ++ (calls.filter (fun c => (GoMap.get? so.ignoredChecks c.2.ID).isNone)).map
        (fun c => { c.1 with Check := c.2 }) := by
  induction calls generalizing so with
  | nil => simp [ScoredObject.addAll]
  | cons c calls ih =>
    rw [ScoredObject.addAll_cons, ih, ScoredObject.Add_ignoredChecks]
    cases h : GoMap.get? so.ignoredChecks c.2.ID with
    | none => simp [ScoredObject.Add_of_not_ignored _ _ _ h, List.filter_cons, h]
    | some u => simp [ScoredObject.Add_of_ignored _ _ _ h, List.filter_cons, h]

/-! ## The grade loop -/

/-- The loop of `Grade()` run from any starting value: the result is a lower
bound of the start and of every grade met, and it is one of them. -/
theorem lowest_foldl (l : List TestScore) (init : Grade) :
    let r := l.foldl (fun lowest s => if s.Grade < lowest then s.Grade else lowest) init
    r ≤ init ∧ (∀ s ∈ l, r ≤ s.Grade) ∧ (r = init ∨ ∃ s ∈ l, r = s.Grade) := by
  induction l generalizing init with
  | nil => simp
  | cons a l ih =>
    simp only [List.foldl_cons]
    by_cases h : a.Grade < init
    · simp only [h, if_true]
      obtain ⟨h1, h2, h3⟩ := ih a.Grade
      refine ⟨le_trans h1 (le_of_lt h), ?_, ?_⟩
      · intro s hs
        rcases List.mem_cons.mp hs with rfl | hs
        · exact h1
        · exact h2 s hs
      · right
        rcases h3 with h3 | ⟨s, hs, h3⟩
        · exact ⟨a, List.mem_cons_self _ _, h3⟩
        · exact ⟨s, List.mem_cons_of_mem _ hs, h3⟩
    · simp only [h, if_false]
      obtain ⟨h1, h2, h3⟩ := ih init
      refine ⟨h1, ?_, ?_⟩
      · intro s hs
        rcases List.mem_cons.mp hs with rfl | hs
        · exact le_trans h1 (not_lt.mp h)
        · exact h2 s hs
      · rcases h3 with h3 | ⟨s, hs, h3⟩
        · exact Or.inl h3
        · exact Or.inr ⟨s, List.mem_cons_of_mem _ hs, h3⟩

theorem ScoredObject.Grade_le_AllOK (so : ScoredObject) : so.Grade ≤ GradeAllOK :=
  (lowest_foldl so.Checks GradeAllOK).1

theorem ScoredObject.Grade_le_of_mem (so : ScoredObject) (s : TestScore) (hs : s ∈ so.Checks) :
    so.Grade ≤ s.Grade :=
  (lowest_foldl so.Checks GradeAllOK).2.1 s hs

theorem ScoredObject.Grade_eq_or_mem (so : ScoredObject) :
    so.Grade = GradeAllOK ∨ ∃ s ∈ so.Checks, so.Grade = s.Grade :=
  (lowest_foldl so.Checks GradeAllOK).2.2

theorem ScoredObject.Grade_of_no_Checks (so : ScoredObject) (h : so.Checks = []) :
    so.Grade = GradeAllOK := by
  simp [ScoredObject.Grade, h]

/-- With grades that do not exceed `GradeAllOK` and at least one outcome, the
grade of the object is the grade of one of its outcomes. -/
theorem ScoredObject.Grade_mem (so : ScoredObject) (hne : so.Checks ≠ [])
    (hle : ∀ s ∈ so.Checks, s.Grade ≤ GradeAllOK) : ∃ s ∈ so.Checks, so.Grade = s.Grade := by
  rcases so.Grade_eq_or_mem with h | h
  · obtain ⟨s, hs⟩ := List.exists_mem_of_ne_nil _ hne
    refine ⟨s, hs, le_antisymm (so.Grade_le_of_mem s hs) ?_⟩
    rw [h]
    exact hle s hs
  · exact h

/-! ## Pointers -/

theorem World.NewObject_of_absent (w : World) (tm : TypeMeta) (om : ObjectMeta)
    (h : GoMap.get? w.scorecard
      (tm.Kind ++ "/" ++ tm.APIVersion ++ "/" ++ om.Namespace ++ "/" ++ om.Name) = none) :
    w.NewObject tm om =
      (w.objects.length,
        { objects := w.objects ++
            [ScoredObject.setIgnoredTests
              { TypeMeta := tm, ObjectMeta := om, Checks := [], ignoredChecks := [] }],
          scorecard := GoMap.set w.scorecard
            (tm.Kind ++ "/" ++ tm.APIVersion ++ "/" ++ om.Namespace ++ "/" ++ om.Name)
            w.objects.length }) := by
  simp only [World.NewObject, ScoredObject.resourceRefKey, ScoredObject.setIgnoredTests, h]

theorem World.NewObject_of_present (w : World) (tm : TypeMeta) (om : ObjectMeta) (p : Ptr)
    (h : GoMap.get? w.scorecard
      (tm.Kind ++ "/" ++ tm.APIVersion ++ "/" ++ om.Namespace ++ "/" ++ om.Name) = some p) :
    w.NewObject tm om = (p, w) := by
  simp only [World.NewObject, ScoredObject.resourceRefKey, h]

theorem World.deref_Add (w w1 : World) (p : Ptr) (ts : TestScore) (check : Check)
    (h : w.Add p ts check = some w1) (q : Ptr) :
    w1.deref q = if q = p then (w.deref p).map (fun so => so.Add ts check) else w.deref q := by
  unfold World.Add at h
  cases hp : w.deref p with
  | none => simp [hp] at h
  | some so =>
    simp only [hp, Option.some.injEq] at h
    subst h
    have hlt : p < w.objects.length := by
      simp only [World.deref] at hp
      exact (List.getElem?_eq_some_iff.mp hp).1
    by_cases hq : q = p
    · subst hq
      simp [World.deref, hlt]
    · simp [World.deref, hq, List.getElem?_set_ne (Ne.symm hq)]

/-- A sequence of `Add` calls through an allocated pointer does not panic and
leaves at this pointer the object after the same calls. -/
theorem World.addAll_of_deref (w : World) (p : Ptr) (so : ScoredObject)
    (calls : List (TestScore × Check)) (h : w.deref p = some so) :
    ∃ w1, w.addAll p calls = some w1 ∧ w1.deref p = some (so.addAll calls) ∧
      w1.scorecard = w.scorecard := by
  induction calls generalizing w so with
  | nil => exact ⟨w, rfl, h, rfl⟩
  | cons c calls ih =>
    have hadd : w.Add p c.1 c.2 =
        some { w with objects := w.objects.set p (so.Add c.1 c.2) } := by
      simp [World.Add, h]
    have hd := World.deref_Add w _ p c.1 c.2 hadd p
    simp only [if_true, h, Option.map_some'] at hd
    obtain ⟨w1, h1, h2, h3⟩ := ih _ (so.Add c.1 c.2) hd
    refine ⟨w1, ?_, ?_, ?_⟩
    · simp only [World.addAll, hadd]
      exact h1
    · rw [ScoredObject.addAll_cons]
      exact h2
    · exact h3

theorem set_of_getElem? {α : Type} (l : List α) (p : Nat) (a : α) (h : l[p]? = some a) :
    l.set p a = l := by
  induction l generalizing p with
  | nil => rfl
  | cons x l ih =>
    cases p with
    | zero =>
      simp only [List.getElem?_cons_zero, Option.some.injEq] at h
      simp [h]
    | succ p =>
      simp only [List.getElem?_cons_succ] at h
      simp [ih p h]

/-- The world after a suppressed `Add` through a pointer is the world before. -/
theorem World.Add_ptr_of_ignored (w : World) (p : Ptr) (so : ScoredObject) (ts : TestScore)
    (check : Check) (hp : w.deref p = some so)
    (h : GoMap.get? so.ignoredChecks check.ID = some ()) : w.Add p ts check = some w := by
  simp only [World.Add, hp, ScoredObject.Add_of_ignored so ts check h]
  rw [set_of_getElem? w.objects p so hp]

/-- The property kept by every stored outcome: its check is not ignored. -/
theorem ScoredObject.Add_keeps_unignored (so : ScoredObject) (ts : TestScore) (check : Check)
    (h : ∀ s ∈ so.Checks, GoMap.get? so.ignoredChecks s.Check.ID = none) :
    ∀ s ∈ (so.Add ts check).Checks,
      GoMap.get? (so.Add ts check).ignoredChecks s.Check.ID = none := by
  intro s hs
  rw [ScoredObject.Add_ignoredChecks]
  cases hc : GoMap.get? so.ignoredChecks check.ID with
  | some u =>
    rw [ScoredObject.Add_of_ignored so ts check hc] at hs
    exact h s hs
  | none =>
    rw [ScoredObject.Add_of_not_ignored so ts check hc] at hs
    rcases List.mem_append.mp hs with hs | hs
    · exact h s hs
    · rw [List.mem_singleton.mp hs]
      exact hc

theorem World.step_keeps_unignored (w w1 : World) (c : Call) (hstep : w.step c = some w1)
    (h : ∀ so ∈ w.objects, ∀ s ∈ so.Checks, GoMap.get? so.ignoredChecks s.Check.ID = none) :
    ∀ so ∈ w1.objects, ∀ s ∈ so.Checks, GoMap.get? so.ignoredChecks s.Check.ID = none := by
  cases c with
  | newObject tm om =>
    simp only [World.step, Option.some.injEq] at hstep
    subst hstep
    cases hk : GoMap.get? w.scorecard
        (tm.Kind ++ "/" ++ tm.APIVersion ++ "/" ++ om.Namespace ++ "/" ++ om.Name) with
    | some p =>
      rw [World.NewObject_of_present w tm om p hk]
      exact h
    | none =>
      rw [World.NewObject_of_absent w tm om hk]
      intro so hso s hs
      rcases List.mem_append.mp hso with hso | hso
      · exact h so hso s hs
      · rw [List.mem_singleton.mp hso] at hs
        simp [ScoredObject.setIgnoredTests] at hs
  | add p ts check =>
    simp only [World.step, World.Add] at hstep
    cases hp : w.deref p with
    | none => simp [hp] at hstep
    | some so0 =>
      simp only [hp, Option.some.injEq] at hstep
      subst hstep
      have hmem : so0 ∈ w.objects := List.getElem?_mem hp
      intro so hso
      rcases List.mem_or_eq_of_mem_set hso with hso | rfl
      · exact h so hso
      · exact ScoredObject.Add_keeps_unignored so0 ts check (h so0 hmem)

theorem World.run_keeps_unignored (w w1 : World) (calls : List Call)
    (hrun : w.run calls = some w1)
    (h : ∀ so ∈ w.objects, ∀ s ∈ so.Checks, GoMap.get? so.ignoredChecks s.Check.ID = none) :
    ∀ so ∈ w1.objects, ∀ s ∈ so.Checks, GoMap.get? so.ignoredChecks s.Check.ID = none := by
  induction calls generalizing w with
  | nil =>
    simp only [World.run, Option.some.injEq] at hrun
    subst hrun
    exact h
  | cons c calls ih =>
    simp only [World.run] at hrun
    cases hs : w.step c with
    | none => simp [hs] at hrun
    | some w2 =>
      simp only [hs] at hrun
      exact ih w2 hrun (World.step_keeps_unignored w w2 c hs h)

/-! ## The registry key -/

theorem key_data (tm : TypeMeta) (om : ObjectMeta) :
    (tm.Kind ++ "/" ++ tm.APIVersion ++ "/" ++ om.Namespace ++ "/" ++ om.Name).data =
      tm.Kind.data ++ '/' :: (tm.APIVersion.data ++
        '/' :: (om.Namespace.data ++ '/' :: om.Name.data)) := by
  simp [String.data_append]

/-- Two lists cut at the first separator: equal heads and equal tails. -/
theorem cut_at_first (sep : Char) (a b r s : List Char) (ha : sep ∉ a) (hb : sep ∉ b)
    (h : a ++ sep :: r = b ++ sep :: s) : a = b ∧ r = s := by
  induction a generalizing b with
  | nil =>
    cases b with
    | nil => simpa using h
    | cons y b =>
      simp only [List.nil_append, List.cons_append, List.cons.injEq] at h
      exact absurd (List.mem_cons.mpr (Or.inl h.1)) hb
  | cons x a ih =>
    cases b with
    | nil =>
      simp only [List.nil_append, List.cons_append, List.cons.injEq] at h
      exact absurd (List.mem_cons.mpr (Or.inl h.1.symm)) ha
    | cons y b =>
      simp only [List.cons_append, List.cons.injEq] at h
      obtain ⟨h1, h2⟩ := ih b (fun hm => ha (List.mem_cons_of_mem _ hm))
        (fun hm => hb (List.mem_cons_of_mem _ hm)) h.2
      exact ⟨by rw [h.1, h1], h2⟩

/-- Two lists cut at the last separator. -/
theorem cut_at_last (sep : Char) (a b r s : List Char) (hr : sep ∉ r) (hs : sep ∉ s)
    (h : a ++ sep :: r = b ++ sep :: s) : a = b ∧ r = s := by
  have h1 : r.reverse ++ sep :: a.reverse = s.reverse ++ sep :: b.reverse := by
    have := congrArg List.reverse h
    simpa using this
  obtain ⟨h2, h3⟩ := cut_at_first sep r.reverse s.reverse a.reverse b.reverse
    (by simpa using hr) (by simpa using hs) h1
  exact ⟨List.reverse_injective h3, List.reverse_injective h2⟩

/-- Keys of identities that differ only in the namespace are different. -/
theorem key_ne_of_namespace_ne (tm : TypeMeta) (om1 om2 : ObjectMeta)
    (hname : om1.Name = om2.Name) (hns : om1.Namespace ≠ om2.Namespace) :
    tm.Kind ++ "/" ++ tm.APIVersion ++ "/" ++ om1.Namespace ++ "/" ++ om1.Name ≠
      tm.Kind ++ "/" ++ tm.APIVersion ++ "/" ++ om2.Namespace ++ "/" ++ om2.Name := by
  intro h
  have hd := congrArg String.data h
  rw [key_data, key_data, hname] at hd
  have h1 := (List.cons.inj (List.append_cancel_left hd)).2
  have h2 := (List.cons.inj (List.append_cancel_left h1)).2
  have h4 := List.append_cancel_right h2
  exact hns (String.ext h4)

/-- The key is injective on identities whose kind, namespace and name hold no
slash. -/
theorem key_injective (tm1 tm2 : TypeMeta) (om1 om2 : ObjectMeta)
    (hk1 : '/' ∉ tm1.Kind.data) (hk2 : '/' ∉ tm2.Kind.data)
    (hs1 : '/' ∉ om1.Namespace.data) (hs2 : '/' ∉ om2.Namespace.data)
    (hn1 : '/' ∉ om1.Name.data) (hn2 : '/' ∉ om2.Name.data)
    (h : tm1.Kind ++ "/" ++ tm1.APIVersion ++ "/" ++ om1.Namespace ++ "/" ++ om1.Name =
      tm2.Kind ++ "/" ++ tm2.APIVersion ++ "/" ++ om2.Namespace ++ "/" ++ om2.Name) :
    tm1.Kind = tm2.Kind ∧ tm1.APIVersion = tm2.APIVersion ∧
      om1.Namespace = om2.Namespace ∧ om1.Name = om2.Name := by
  have hd := congrArg String.data h
  rw [key_data, key_data] at hd
  obtain ⟨hK, hrest⟩ := cut_at_first '/' _ _ _ _ hk1 hk2 hd
  have hrest1 : (tm1.APIVersion.data ++ '/' :: om1.Namespace.data) ++ '/' :: om1.Name.data =
      (tm2.APIVersion.data ++ '/' :: om2.Namespace.data) ++ '/' :: om2.Name.data := by
    simpa using hrest
  obtain ⟨hmid, hN⟩ := cut_at_last '/' _ _ _ _ hn1 hn2 hrest1
  obtain ⟨hA, hS⟩ := cut_at_last '/' _ _ _ _ hs1 hs2 hmid
  exact ⟨String.ext hK, String.ext hA, String.ext hS, String.ext hN⟩

/-! ## Registration -/

/-- After `NewObject` the key of the identity holds the returned pointer. -/
theorem World.NewObject_get?_key (w : World) (tm : TypeMeta) (om : ObjectMeta) :
    GoMap.get? (w.NewObject tm om).2.scorecard
      (tm.Kind ++ "/" ++ tm.APIVersion ++ "/" ++ om.Namespace ++ "/" ++ om.Name)
      = some (w.NewObject tm om).1 := by
  cases hk : GoMap.get? w.scorecard
      (tm.Kind ++ "/" ++ tm.APIVersion ++ "/" ++ om.Namespace ++ "/" ++ om.Name) with
  | some p =>
    rw [World.NewObject_of_present w tm om p hk]
    exact hk
  | none =>
    rw [World.NewObject_of_absent w tm om hk]
    exact GoMap.get?_set_self _ _ _

/-- Registration by `NewObject` keeps every entry of the registry. -/
theorem World.NewObject_keeps_entries (w : World) (tm : TypeMeta) (om : ObjectMeta)
    (k : String) (p : Ptr) (h : GoMap.get? w.scorecard k = some p) :
    GoMap.get? (w.NewObject tm om).2.scorecard k = some p := by
  cases hk : GoMap.get? w.scorecard
      (tm.Kind ++ "/" ++ tm.APIVersion ++ "/" ++ om.Namespace ++ "/" ++ om.Name) with
  | some q =>
    rw [World.NewObject_of_present w tm om q hk]
    exact h
  | none =>
    rw [World.NewObject_of_absent w tm om hk]
    have hne : tm.Kind ++ "/" ++ tm.APIVersion ++ "/" ++ om.Namespace ++ "/" ++ om.Name ≠ k := by
      intro he
      rw [he, h] at hk
      cases hk
    simp only
    rw [GoMap.get?_set_other _ _ _ _ hne]
    exact h

theorem World.NewObject_WF (w : World) (tm : TypeMeta) (om : ObjectMeta) (hwf : w.WF) :
    (w.NewObject tm om).2.WF := by
  cases hk : GoMap.get? w.scorecard
      (tm.Kind ++ "/" ++ tm.APIVersion ++ "/" ++ om.Namespace ++ "/" ++ om.Name) with
  | some q =>
    rw [World.NewObject_of_present w tm om q hk]
    exact hwf
  | none =>
    rw [World.NewObject_of_absent w tm om hk]
    obtain ⟨hb, hi⟩ := hwf
    have hget : ∀ k p, GoMap.get? (GoMap.set w.scorecard
        (tm.Kind ++ "/" ++ tm.APIVersion ++ "/" ++ om.Namespace ++ "/" ++ om.Name)
        w.objects.length) k = some p →
        (k = tm.Kind ++ "/" ++ tm.APIVersion ++ "/" ++ om.Namespace ++ "/" ++ om.Name ∧
          p = w.objects.length) ∨
        (k ≠ tm.Kind ++ "/" ++ tm.APIVersion ++ "/" ++ om.Namespace ++ "/" ++ om.Name ∧
          GoMap.get? w.scorecard k = some p) := by
      intro k p hkp
      by_cases he : tm.Kind ++ "/" ++ tm.APIVersion ++ "/" ++ om.Namespace ++ "/" ++ om.Name = k
      · rw [← he, GoMap.get?_set_self] at hkp
        exact Or.inl ⟨he.symm, (Option.some.inj hkp).symm⟩
      · rw [GoMap.get?_set_other _ _ _ _ he] at hkp
        exact Or.inr ⟨fun h => he h.symm, hkp⟩
    constructor
    · intro k p hkp
      show p < (w.objects ++ [_]).length
      rw [List.length_append, List.length_singleton]
      rcases hget k p hkp with ⟨-, hp⟩ | ⟨-, hp⟩
      · rw [hp]
        exact Nat.lt_succ_self _
      · exact Nat.lt_succ_of_lt (hb k p hp)
    · intro k1 k2 p h1 h2
      rcases hget k1 p h1 with ⟨e1, hp1⟩ | ⟨-, hp1⟩ <;>
        rcases hget k2 p h2 with ⟨e2, hp2⟩ | ⟨-, hp2⟩
      · rw [e1, e2]
      · have hlt := hb k2 p hp2
        rw [hp1] at hlt
        exact absurd hlt (Nat.lt_irrefl _)
      · have hlt := hb k1 p hp1
        rw [hp2] at hlt
        exact absurd hlt (Nat.lt_irrefl _)
      · exact hi k1 k2 p hp1 hp2

theorem World.Add_WF (w w1 : World) (p : Ptr) (ts : TestScore) (check : Check)
    (h : w.Add p ts check = some w1) (hwf : w.WF) : w1.WF := by
  unfold World.Add at h
  cases hp : w.deref p with
  | none => simp [hp] at h
  | some so =>
    simp only [hp, Option.some.injEq] at h
    subst h
    obtain ⟨hb, hi⟩ := hwf
    exact ⟨fun k q hq => by simpa using hb k q hq, hi⟩

theorem World.init_WF : World.init.WF := by
  constructor
  · intro k p h
    simp [World.init, New, GoMap.get?] at h
  · intro k1 k2 p h
    simp [World.init, New, GoMap.get?] at h

/-- Every state reached from the initial one has a well-formed registry. -/
theorem World.run_WF (w w1 : World) (calls : List Call) (hrun : w.run calls = some w1)
    (hwf : w.WF) : w1.WF := by
  induction calls generalizing w with
  | nil =>
    simp only [World.run, Option.some.injEq] at hrun
    subst hrun
    exact hwf
  | cons c calls ih =>
    simp only [World.run] at hrun
    cases hs : w.step c with
    | none => simp [hs] at hrun
    | some w2 =>
      simp only [hs] at hrun
      apply ih w2 hrun
      cases c with
      | newObject tm om =>
        simp only [World.step, Option.some.injEq] at hs
        subst hs
        exact World.NewObject_WF w tm om hwf
      | add p ts check => exact World.Add_WF w w2 p ts check hs hwf

/-- Registrations of two identities with different keys return different
pointers when the registry is well formed. -/
theorem World.NewObject_ptr_ne (w : World) (tm1 tm2 : TypeMeta) (om1 om2 : ObjectMeta)
    (hwf : w.WF)
    (hne : tm1.Kind ++ "/" ++ tm1.APIVersion ++ "/" ++ om1.Namespace ++ "/" ++ om1.Name ≠
      tm2.Kind ++ "/" ++ tm2.APIVersion ++ "/" ++ om2.Namespace ++ "/" ++ om2.Name) :
    (w.NewObject tm1 om1).1 ≠ ((w.NewObject tm1 om1).2.NewObject tm2 om2).1 := by
  intro hp
  have hwf2 := World.NewObject_WF _ tm2 om2 (World.NewObject_WF w tm1 om1 hwf)
  have h1 := World.NewObject_keeps_entries (w.NewObject tm1 om1).2 tm2 om2 _ _
    (World.NewObject_get?_key w tm1 om1)
  have h2 := World.NewObject_get?_key (w.NewObject tm1 om1).2 tm2 om2
  rw [← hp] at h2
  exact hne (hwf2.2 _ _ _ h1 h2)

/-- From an empty registry, two registrations under different keys leave two
entries. -/
theorem World.NewObject_two_entries (objs : List ScoredObject) (tm1 tm2 : TypeMeta)
    (om1 om2 : ObjectMeta)
    (hne : tm1.Kind ++ "/" ++ tm1.APIVersion ++ "/" ++ om1.Namespace ++ "/" ++ om1.Name ≠
      tm2.Kind ++ "/" ++ tm2.APIVersion ++ "/" ++ om2.Namespace ++ "/" ++ om2.Name) :
    (((World.mk objs New).NewObject tm1 om1).2.NewObject tm2 om2).2.scorecard.length = 2 := by
  have h0 : GoMap.get? (World.mk objs New).scorecard
      (tm1.Kind ++ "/" ++ tm1.APIVersion ++ "/" ++ om1.Namespace ++ "/" ++ om1.Name) = none := rfl
  rw [World.NewObject_of_absent _ tm1 om1 h0]
  have h1 : GoMap.get? (GoMap.set (World.mk objs New).scorecard
      (tm1.Kind ++ "/" ++ tm1.APIVersion ++ "/" ++ om1.Namespace ++ "/" ++ om1.Name)
      (World.mk objs New).objects.length)
      (tm2.Kind ++ "/" ++ tm2.APIVersion ++ "/" ++ om2.Namespace ++ "/" ++ om2.Name) = none := by
    rw [GoMap.get?_set_other _ _ _ _ hne]
    rfl
  rw [World.NewObject_of_absent _ tm2 om2 h1]
  simp only
  rw [GoMap.set_of_get?_none _ _ _ h1]
  simp [New, GoMap.set]

/-! ## Threshold queries -/

theorem ScoredObject.AnyBelowOrEqualToGrade_go_iff (threshold : KubeScore.Grade)
    (l : List TestScore) :
    ScoredObject.AnyBelowOrEqualToGrade.go threshold l = true ↔
      ∃ s ∈ l, s.Grade ≤ threshold := by
  induction l with
  | nil => simp [ScoredObject.AnyBelowOrEqualToGrade.go]
  | cons a l ih =>
    by_cases h : a.Grade ≤ threshold
    · simp [ScoredObject.AnyBelowOrEqualToGrade.go, h]
    · simp [ScoredObject.AnyBelowOrEqualToGrade.go, h, ih]

theorem ScoredObject.AnyBelowOrEqualToGrade_eq_true_iff (so : ScoredObject)
    (threshold : KubeScore.Grade) :
    so.AnyBelowOrEqualToGrade threshold = true ↔ ∃ s ∈ so.Checks, s.Grade ≤ threshold :=
  ScoredObject.AnyBelowOrEqualToGrade_go_iff threshold so.Checks

/-- The loop over the registry, for any list of entries whose pointers are
allocated: it returns, and it returns true exactly when some visited record
answers true. -/
theorem World.AnyBelowOrEqualToGrade_loop (w : World) (threshold : Grade)
    (order : List (String × Ptr)) (halloc : ∀ e ∈ order, (w.deref e.2).isSome = true) :
    ∃ b, w.AnyBelowOrEqualToGrade order threshold = some b ∧
      (b = true ↔ ∃ e ∈ order, ∃ so, w.deref e.2 = some so ∧
        so.AnyBelowOrEqualToGrade threshold = true) := by
  induction order with
  | nil => exact ⟨false, rfl, by simp⟩
  | cons e order ih =>
    obtain ⟨k, o⟩ := e
    obtain ⟨b, hb, hiff⟩ := ih (fun e he => halloc e (List.mem_cons_of_mem _ he))
    have ho := halloc (k, o) (List.mem_cons_self _ _)
    cases hd : w.deref o with
    | none => simp [hd] at ho
    | some so =>
      by_cases hany : so.AnyBelowOrEqualToGrade threshold = true
      · refine ⟨true, by simp [World.AnyBelowOrEqualToGrade, hd, hany], ?_⟩
        simp only [true_iff]
        exact ⟨(k, o), List.mem_cons_self _ _, so, hd, hany⟩
      · refine ⟨b, by simp [World.AnyBelowOrEqualToGrade, hd, hany, hb], ?_⟩
        rw [hiff]
        constructor
        · rintro ⟨e, he, so1, h1, h2⟩
          exact ⟨e, List.mem_cons_of_mem _ he, so1, h1, h2⟩
        · rintro ⟨e, he, so1, h1, h2⟩
          rcases List.mem_cons.mp he with rfl | he
          · simp only [hd, Option.some.injEq] at h1
            subst h1
            exact absurd h2 hany
          · exact ⟨e, he, so1, h1, h2⟩

/-! ## Entries of the registry along a run -/

theorem World.step_keeps_entries (w w1 : World) (c : Call) (hstep : w.step c = some w1)
    (k : String) (p : Ptr) (h : GoMap.get? w.scorecard k = some p) :
    GoMap.get? w1.scorecard k = some p := by
  cases c with
  | newObject tm om =>
    simp only [World.step, Option.some.injEq] at hstep
    subst hstep
    exact World.NewObject_keeps_entries w tm om k p h
  | add q ts check =>
    simp only [World.step, World.Add] at hstep
    cases hq : w.deref q with
    | none => simp [hq] at hstep
    | some so =>
      simp only [hq, Option.some.injEq] at hstep
      subst hstep
      exact h

/-- No call removes or redirects an entry of the registry. -/
theorem World.run_keeps_entries (w w1 : World) (calls : List Call)
    (hrun : w.run calls = some w1) (k : String) (p : Ptr)
    (h : GoMap.get? w.scorecard k = some p) : GoMap.get? w1.scorecard k = some p := by
  induction calls generalizing w with
  | nil =>
    simp only [World.run, Option.some.injEq] at hrun
    subst hrun
    exact h
  | cons c calls ih =>
    simp only [World.run] at hrun
    cases hs : w.step c with
    | none => simp [hs] at hrun
    | some w2 =>
      simp only [hs] at hrun
      exact ih w2 hrun (World.step_keeps_entries w w2 c hs k p h)

theorem GoMap.mem_set {α : Type} (m : GoMap α) (k : String) (v : α) (e : String × α)
    (h : e ∈ GoMap.set m k v) : e ∈ m ∨ e = (k, v) := by
  induction m with
  | nil =>
    simp only [GoMap.set, List.mem_singleton] at h
    exact Or.inr h
  | cons x m ih =>
    obtain ⟨k0, x0⟩ := x
    by_cases h0 : k0 = k
    · simp only [GoMap.set, h0, if_true, List.mem_cons] at h
      rcases h with h | h
      · exact Or.inr h
      · exact Or.inl (List.mem_cons_of_mem _ h)
    · simp only [GoMap.set, h0, if_false, List.mem_cons] at h
      rcases h with h | h
      · exact Or.inl (h ▸ List.mem_cons_self _ _)
      · rcases ih h with h1 | h1
        · exact Or.inl (List.mem_cons_of_mem _ h1)
        · exact Or.inr h1

theorem World.step_entries_allocated (w w1 : World) (c : Call) (hstep : w.step c = some w1)
    (h : ∀ e ∈ w.scorecard, (w.deref e.2).isSome = true) :
    ∀ e ∈ w1.scorecard, (w1.deref e.2).isSome = true := by
  have hlt : ∀ (v : World) (q : Ptr), (v.deref q).isSome = true ↔ q < v.objects.length := by
    intro v q
    constructor
    · intro hs
      by_contra hc
      have hn : v.objects[q]? = none := List.getElem?_eq_none (Nat.le_of_not_lt hc)
      simp [World.deref, hn] at hs
    · intro hq
      simp [World.deref, List.getElem?_eq_getElem hq]
  cases c with
  | newObject tm om =>
    simp only [World.step, Option.some.injEq] at hstep
    subst hstep
    cases hk : GoMap.get? w.scorecard
        (tm.Kind ++ "/" ++ tm.APIVersion ++ "/" ++ om.Namespace ++ "/" ++ om.Name) with
    | some p =>
      rw [World.NewObject_of_present w tm om p hk]
      exact h
    | none =>
      rw [World.NewObject_of_absent w tm om hk]
      intro e he
      rw [hlt]
      show e.2 < (w.objects ++ [_]).length
      rw [List.length_append, List.length_singleton]
      rcases GoMap.mem_set _ _ _ e he with he | he
      · exact Nat.lt_succ_of_lt ((hlt w e.2).mp (h e he))
      · rw [he]
        exact Nat.lt_succ_self _
  | add q ts check =>
    simp only [World.step, World.Add] at hstep
    cases hq : w.deref q with
    | none => simp [hq] at hstep
    | some so =>
      simp only [hq, Option.some.injEq] at hstep
      subst hstep
      intro e he
      rw [hlt]
      show e.2 < (w.objects.set q _).length
      rw [List.length_set]
      exact (hlt w e.2).mp (h e he)

/-- In every state reached from the initial one, every pointer held by the
registry is allocated. -/
theorem World.run_entries_allocated (w w1 : World) (calls : List Call)
    (hrun : w.run calls = some w1) (h : ∀ e ∈ w.scorecard, (w.deref e.2).isSome = true) :
    ∀ e ∈ w1.scorecard, (w1.deref e.2).isSome = true := by
  induction calls generalizing w with
  | nil =>
    simp only [World.run, Option.some.injEq] at hrun
    subst hrun
    exact h
  | cons c calls ih =>
    simp only [World.run] at hrun
    cases hs : w.step c with
    | none => simp [hs] at hrun
    | some w2 =>
      simp only [hs] at hrun
      exact ih w2 hrun (World.step_entries_allocated w w2 c hs h)

/-! ## Splitting and trimming -/

theorem splitChars_ne_nil (sep : Char) (l : List Char) : splitChars sep l ≠ [] := by
  cases l with
  | nil => simp [splitChars]
  | cons c cs =>
    by_cases h : c = sep
    · simp [splitChars, h]
    · simp only [splitChars, h, if_false]
      split <;> simp

theorem intercalate_cons_cons (sep : List Char) (c : Char) (piece : List Char)
    (rest : List (List Char)) :
    List.intercalate sep ((c :: piece) :: rest) = c :: List.intercalate sep (piece :: rest) := by
  cases rest <;> simp [List.intercalate, List.intersperse]

/-- Joining the pieces with the separator gives the list back. -/
theorem splitChars_intercalate (sep : Char) (l : List Char) :
    List.intercalate [sep] (splitChars sep l) = l := by
  induction l with
  | nil => simp [splitChars, List.intercalate]
  | cons c cs ih =>
    by_cases h : c = sep
    · simp only [splitChars, h, if_true]
      cases hs : splitChars sep cs with
      | nil => exact absurd hs (splitChars_ne_nil sep cs)
      | cons piece rest =>
        rw [hs] at ih
        simp only [List.intercalate, List.intersperse, List.flatten_cons, List.nil_append,
          List.singleton_append] at ih ⊢
        rw [ih]
    · simp only [splitChars, h, if_false]
      cases hs : splitChars sep cs with
      | nil => exact absurd hs (splitChars_ne_nil sep cs)
      | cons piece rest =>
        rw [hs] at ih
        simp only
        rw [intercalate_cons_cons, ih]

/-- No piece holds the separator. -/
theorem splitChars_no_sep (sep : Char) (l : List Char) :
    ∀ piece ∈ splitChars sep l, sep ∉ piece := by
  induction l with
  | nil => simp [splitChars]
  | cons c cs ih =>
    by_cases h : c = sep
    · simp only [splitChars, h, if_true]
      intro piece hp
      rcases List.mem_cons.mp hp with rfl | hp
      · simp
      · exact ih piece hp
    · simp only [splitChars, h, if_false]
      cases hs : splitChars sep cs with
      | nil => exact absurd hs (splitChars_ne_nil sep cs)
      | cons piece rest =>
        rw [hs] at ih
        intro q hq
        rcases List.mem_cons.mp hq with rfl | hq
        · intro hm
          rcases List.mem_cons.mp hm with hm | hm
          · exact h hm.symm
          · exact ih piece (List.mem_cons_self _ _) hm
        · exact ih q (List.mem_cons_of_mem _ hq)

theorem TrimSpace_data (s : String) :
    (TrimSpace s).data = (s.data.dropWhile isSpace).rdropWhile isSpace := rfl

/-- The trimmed string does not start with white space. -/
theorem TrimSpace_head (s : String) (c : Char) (h : (TrimSpace s).data.head? = some c) :
    isSpace c = false := by
  rw [TrimSpace_data] at h
  have hne : (s.data.dropWhile isSpace).rdropWhile isSpace ≠ [] := by
    intro hn
    rw [hn] at h
    cases h
  have hpre := List.rdropWhile_prefix isSpace (s.data.dropWhile isSpace)
  have hh := hpre.head hne
  rw [List.head?_eq_head hne, Option.some.injEq] at h
  rw [← h, hh]
  exact List.head_dropWhile_not isSpace s.data _

/-- The trimmed string does not end with white space. -/
theorem TrimSpace_getLast (s : String) (c : Char)
    (h : (TrimSpace s).data.getLast? = some c) : isSpace c = false := by
  rw [TrimSpace_data] at h
  have hne : (s.data.dropWhile isSpace).rdropWhile isSpace ≠ [] := by
    intro hn
    rw [hn] at h
    cases h
  rw [List.getLast?_eq_getLast _ hne, Option.some.injEq] at h
  have := List.rdropWhile_last_not isSpace (s.data.dropWhile isSpace) hne
  rw [h] at this
  simpa using this

/-- White space only is cut off: the string is white space, then the trimmed
string, then white space. -/
theorem TrimSpace_decompose (s : String) :
    ∃ l r : List Char, s.data = l ++ (TrimSpace s).data ++ r ∧
      (∀ c ∈ l, isSpace c = true) ∧ (∀ c ∈ r, isSpace c = true) := by
  refine ⟨s.data.takeWhile isSpace, (s.data.dropWhile isSpace).rtakeWhile isSpace, ?_, ?_, ?_⟩
  · have hr : ∀ m : List Char, m.rdropWhile isSpace ++ m.rtakeWhile isSpace = m := by
      intro m
      rw [List.rdropWhile, List.rtakeWhile, ← List.reverse_append,
        List.takeWhile_append_dropWhile, List.reverse_reverse]
    rw [TrimSpace_data, List.append_assoc, hr, List.takeWhile_append_dropWhile]
  · intro c hc
    exact List.mem_takeWhile_imp hc
  · intro c hc
    have := List.mem_takeWhile_imp (List.mem_reverse.mp
      (by simpa [List.rtakeWhile] using hc : c ∈ ((s.data.dropWhile isSpace).reverse.takeWhile
        isSpace).reverse))
    exact this

/-! ## The suppression set built by `setIgnoredTests` -/

/-- The keys of a set built by successive stores: the keys already there and
the keys stored. -/
theorem GoMap.get?_foldl_set (f : String → String) (keys : List String) (m0 : GoMap Unit)
    (c : String) :
    GoMap.get? (keys.foldl (fun m k => GoMap.set m (f k) ()) m0) c = some () ↔
      GoMap.get? m0 c = some () ∨ ∃ k ∈ keys, c = f k := by
  induction keys generalizing m0 with
  | nil => simp
  | cons k keys ih =>
    rw [List.foldl_cons, ih]
    by_cases h : f k = c
    · subst h
      simp [GoMap.get?_set_self]
    · rw [GoMap.get?_set_other _ _ _ _ h]
      constructor
      · rintro (h1 | ⟨k1, hk1, h1⟩)
        · exact Or.inl h1
        · exact Or.inr ⟨k1, List.mem_cons_of_mem _ hk1, h1⟩
      · rintro (h1 | ⟨k1, hk1, h1⟩)
        · exact Or.inl h1
        · rcases List.mem_cons.mp hk1 with rfl | hk1
          · exact absurd h1.symm h
          · exact Or.inr ⟨k1, hk1, h1⟩

theorem ScoredObject.setIgnoredTests_of_annotation (so : ScoredObject) (v : String)
    (h : GoMap.get? so.ObjectMeta.Annotations "kube-score/ignore" = some v) :
    so.setIgnoredTests.ignoredChecks =
      (Split v ',').foldl (fun m ignored => GoMap.set m (TrimSpace ignored) ()) [] := by
  simp only [ScoredObject.setIgnoredTests, ignoredChecksAnnotation, h]

theorem ScoredObject.setIgnoredTests_of_no_annotation (so : ScoredObject)
    (h : GoMap.get? so.ObjectMeta.Annotations "kube-score/ignore" = none) :
    so.setIgnoredTests.ignoredChecks = [] := by
  simp only [ScoredObject.setIgnoredTests, ignoredChecksAnnotation, h]

/-- A check ID is in the set built from the annotation value exactly when it
is the trimmed form of a piece of the value. -/
theorem ScoredObject.setIgnoredTests_get? (so : ScoredObject) (v c : String)
    (h : GoMap.get? so.ObjectMeta.Annotations "kube-score/ignore" = some v) :
    GoMap.get? so.setIgnoredTests.ignoredChecks c = some () ↔
      ∃ piece ∈ Split v ',', c = TrimSpace piece := by
  rw [ScoredObject.setIgnoredTests_of_annotation so v h, GoMap.get?_foldl_set]
  simp [GoMap.get?]

/-- An `Add` call leaves the outcome list as it is exactly when the check is
ignored. -/
theorem ScoredObject.Add_Checks_eq_iff (so : ScoredObject) (ts : TestScore) (check : Check) :
    (so.Add ts check).Checks = so.Checks ↔ GoMap.get? so.ignoredChecks check.ID = some () := by
  cases h : GoMap.get? so.ignoredChecks check.ID with
  | some u => simp [ScoredObject.Add_of_ignored so ts check h]
  | none => simp [ScoredObject.Add_of_not_ignored so ts check h]

/-- The record that `NewObject` allocates for a key that is not registered. -/
theorem World.NewObject_deref_of_absent (w : World) (tm : TypeMeta) (om : ObjectMeta)
    (h : GoMap.get? w.scorecard
      (tm.Kind ++ "/" ++ tm.APIVersion ++ "/" ++ om.Namespace ++ "/" ++ om.Name) = none) :
    (w.NewObject tm om).2.deref (w.NewObject tm om).1 =
      some (ScoredObject.setIgnoredTests
        { TypeMeta := tm, ObjectMeta := om, Checks := [], ignoredChecks := [] }) := by
  rw [World.NewObject_of_absent w tm om h]
  simp [World.deref]

/-! ## Grades depend on the grades of the outcomes only -/

theorem ScoredObject.Grade_eq_foldl_map (so : ScoredObject) :
    so.Grade = (so.Checks.map (fun s => s.Grade)).foldl
      (fun lowest g => if g < lowest then g else lowest) GradeAllOK := by
  simp [ScoredObject.Grade, List.foldl_map]

theorem ScoredObject.Grade_congr (so1 so2 : ScoredObject)
    (h : so1.Checks.map (fun s => s.Grade) = so2.Checks.map (fun s => s.Grade)) :
    so1.Grade = so2.Grade := by
  rw [ScoredObject.Grade_eq_foldl_map, ScoredObject.Grade_eq_foldl_map, h]

theorem ScoredObject.AnyBelowOrEqualToGrade_congr (so1 so2 : ScoredObject)
    (threshold : KubeScore.Grade)
    (h : so1.Checks.map (fun s => s.Grade) = so2.Checks.map (fun s => s.Grade)) :
    so1.AnyBelowOrEqualToGrade threshold = so2.AnyBelowOrEqualToGrade threshold := by
  have key : ∀ so : ScoredObject, so.AnyBelowOrEqualToGrade threshold = true ↔
      ∃ g ∈ so.Checks.map (fun s => s.Grade), g ≤ threshold := by
    intro so
    rw [ScoredObject.AnyBelowOrEqualToGrade_eq_true_iff]
    simp
  rw [Bool.eq_iff_iff, key so1, key so2, h]

/-- Replacing an outcome by one of the same grade keeps the list of grades. -/
theorem map_Grade_set (l : List TestScore) (i : Nat) (ts ts1 : TestScore)
    (h : l[i]? = some ts) (hg : ts1.Grade = ts.Grade) :
    (l.set i ts1).map (fun s => s.Grade) = l.map (fun s => s.Grade) := by
  induction l generalizing i with
  | nil => rfl
  | cons x l ih =>
    cases i with
    | zero =>
      simp only [List.getElem?_cons_zero, Option.some.injEq] at h
      simp [h, hg]
    | succ i =>
      simp only [List.getElem?_cons_succ] at h
      simp [ih i h]

/-- One more outcome: the grade is the lower of the grade so far and the grade
of the new outcome. -/
theorem ScoredObject.Grade_append_one (so : ScoredObject) (ts : TestScore) :
    ScoredObject.Grade { so with Checks := so.Checks ++ [ts] } = min so.Grade ts.Grade := by
  simp only [ScoredObject.Grade, List.foldl_append, List.foldl_cons, List.foldl_nil]
  split
  · next h => exact (min_eq_right (le_of_lt h)).symm
  · next h => exact (min_eq_left (not_lt.mp h)).symm

/-- Every `Add` call, ignored or not, gives the lower of the grade before and
the grade passed in, or keeps the grade. -/
theorem ScoredObject.Grade_Add (so : ScoredObject) (ts : TestScore) (check : Check) :
    (so.Add ts check).Grade =
      match GoMap.get? so.ignoredChecks check.ID with
      | some _ => so.Grade
      | none => min so.Grade ts.Grade := by
  cases h : GoMap.get? so.ignoredChecks check.ID with
  | some u => rw [ScoredObject.Add_of_ignored so ts check h]
  | none =>
    rw [ScoredObject.Add_of_not_ignored so ts check h]
    exact ScoredObject.Grade_append_one so { ts with Check := check }

/-! ## Claims -/

/-- C1: on a record freshly created by `NewObject`, after any sequence of
`Add` calls with valid grades, `Grade()` is `GradeAllOK` when no call had a
check outside the suppression set, and otherwise it is the least grade among
the calls whose check is outside the suppression set. -/
theorem Grade_eq_min_of_added (w : World) (tm : TypeMeta) (om : ObjectMeta)
    (calls : List (TestScore × Check))
    (hfresh : GoMap.get? w.scorecard
      (tm.Kind ++ "/" ++ tm.APIVersion ++ "/" ++ om.Namespace ++ "/" ++ om.Name) = none)
    (hvalid : ∀ c ∈ calls, c.1.Grade = GradeCritical ∨ c.1.Grade = GradeWarning ∨
      c.1.Grade = GradeAlmostOK ∨ c.1.Grade = GradeAllOK) :
    ∃ so0 w1 so1,
      (w.NewObject tm om).2.deref (w.NewObject tm om).1 = some so0 ∧ so0.Checks = [] ∧
      (w.NewObject tm om).2.addAll (w.NewObject tm om).1 calls = some w1 ∧
      w1.deref (w.NewObject tm om).1 = some so1 ∧
      (calls.filter (fun c => (GoMap.get? so0.ignoredChecks c.2.ID).isNone) = [] →
        so1.Grade = GradeAllOK) ∧
      (∀ c ∈ calls.filter (fun c => (GoMap.get? so0.ignoredChecks c.2.ID).isNone),
        so1.Grade ≤ c.1.Grade) ∧
      (calls.filter (fun c => (GoMap.get? so0.ignoredChecks c.2.ID).isNone) ≠ [] →
        ∃ c ∈ calls.filter (fun c => (GoMap.get? so0.ignoredChecks c.2.ID).isNone),
          so1.Grade = c.1.Grade) := by
  rw [World.NewObject_of_absent w tm om hfresh]
  let so0 : ScoredObject := ScoredObject.setIgnoredTests
    { TypeMeta := tm, ObjectMeta := om, Checks := [], ignoredChecks := [] }
  have hd : World.deref
      { objects := w.objects ++ [so0],
        scorecard := GoMap.set w.scorecard
          (tm.Kind ++ "/" ++ tm.APIVersion ++ "/" ++ om.Namespace ++ "/" ++ om.Name)
          w.objects.length } w.objects.length = some so0 := by
    simp [World.deref]
  obtain ⟨w1, h1, h2, -⟩ := World.addAll_of_deref _ _ so0 calls hd
  have h0 : so0.Checks = [] := rfl
  have hC := ScoredObject.addAll_Checks so0 calls
  rw [h0, List.nil_append] at hC
  refine ⟨so0, w1, so0.addAll calls, hd, h0, h1, h2, ?_, ?_, ?_⟩
  · intro hnil
    apply ScoredObject.Grade_of_no_Checks
    rw [hC, hnil, List.map_nil]
  · intro c hc
    have := ScoredObject.Grade_le_of_mem (so0.addAll calls) { c.1 with Check := c.2 }
      (by rw [hC]; exact List.mem_map_of_mem _ hc)
    exact this
  · intro hne
    have hne1 : (so0.addAll calls).Checks ≠ [] := by
      rw [hC]
      simpa using hne
    have hle : ∀ s ∈ (so0.addAll calls).Checks, s.Grade ≤ GradeAllOK := by
      intro s hs
      rw [hC] at hs
      obtain ⟨c, hc, rfl⟩ := List.mem_map.mp hs
      have hv := hvalid c (List.mem_of_mem_filter hc)
      simp only [GradeCritical, GradeWarning, GradeAlmostOK, GradeAllOK] at hv ⊢
      rcases hv with hv | hv | hv | hv <;> rw [hv] <;> decide
    obtain ⟨s, hs, hg⟩ := ScoredObject.Grade_mem _ hne1 hle
    rw [hC] at hs
    obtain ⟨c, hc, rfl⟩ := List.mem_map.mp hs
    exact ⟨c, hc, hg⟩

theorem Grade_eq_min_of_added_witness :
    GoMap.get? World.init.scorecard
      (exTypeMeta.Kind ++ "/" ++ exTypeMeta.APIVersion ++ "/" ++ exObjectMeta.Namespace ++ "/"
        ++ exObjectMeta.Name) = none ∧
    (∀ c ∈ exCalls, c.1.Grade = GradeCritical ∨ c.1.Grade = GradeWarning ∨
      c.1.Grade = GradeAlmostOK ∨ c.1.Grade = GradeAllOK) ∧
    ∃ so0 w1 so1,
      (World.init.NewObject exTypeMeta exObjectMeta).2.deref
        (World.init.NewObject exTypeMeta exObjectMeta).1 = some so0 ∧ so0.Checks = [] ∧
      (World.init.NewObject exTypeMeta exObjectMeta).2.addAll
        (World.init.NewObject exTypeMeta exObjectMeta).1 exCalls = some w1 ∧
      w1.deref (World.init.NewObject exTypeMeta exObjectMeta).1 = some so1 ∧
      (exCalls.filter (fun c => (GoMap.get? so0.ignoredChecks c.2.ID).isNone) = [] →
        so1.Grade = GradeAllOK) ∧
      (∀ c ∈ exCalls.filter (fun c => (GoMap.get? so0.ignoredChecks c.2.ID).isNone),
        so1.Grade ≤ c.1.Grade) ∧
      (exCalls.filter (fun c => (GoMap.get? so0.ignoredChecks c.2.ID).isNone) ≠ [] →
        ∃ c ∈ exCalls.filter (fun c => (GoMap.get? so0.ignoredChecks c.2.ID).isNone),
          so1.Grade = c.1.Grade) :=
  ⟨by decide, by decide,
    Grade_eq_min_of_added World.init exTypeMeta exObjectMeta exCalls (by decide) (by decide)⟩

/-- C2: when the supplied check is in the suppression set, `Add` leaves the
record as it is (same outcome list, same length, same `Grade()`), the whole
program state is unchanged when the call goes through a pointer, and a
sequence of `Add` calls gives the same record with or without this call,
wherever it stands in the sequence. -/
theorem Add_ignored_is_noop (so : ScoredObject) (ts : TestScore) (check : Check)
    (before after : List (TestScore × Check)) (w : World) (p : Ptr)
    (h : GoMap.get? so.ignoredChecks check.ID = some ()) (hp : w.deref p = some so) :
    so.Add ts check = so ∧
    (so.Add ts check).Checks = so.Checks ∧
    (so.Add ts check).Checks.length = so.Checks.length ∧
    (so.Add ts check).Grade = so.Grade ∧
    w.Add p ts check = some w ∧
    so.addAll (before ++ (ts, check) :: after) = so.addAll (before ++ after) := by
  have h1 := ScoredObject.Add_of_ignored so ts check h
  refine ⟨h1, by rw [h1], by rw [h1], by rw [h1], World.Add_ptr_of_ignored w p so ts check hp h, ?_⟩
  rw [ScoredObject.addAll_append, ScoredObject.addAll_append, ScoredObject.addAll_cons]
  have h2 : GoMap.get? (so.addAll before).ignoredChecks check.ID = some () := by
    rw [ScoredObject.addAll_ignoredChecks]
    exact h
  rw [ScoredObject.Add_of_ignored _ ts check h2]

theorem Add_ignored_is_noop_witness :
    GoMap.get? exObject.ignoredChecks (exCheck "check-a").ID = some () ∧
    World.deref { objects := [exObject], scorecard := New } 0 = some exObject ∧
    (exObject.Add (exScore GradeCritical) (exCheck "check-a") = exObject ∧
     (exObject.Add (exScore GradeCritical) (exCheck "check-a")).Checks = exObject.Checks ∧
     (exObject.Add (exScore GradeCritical) (exCheck "check-a")).Checks.length
       = exObject.Checks.length ∧
     (exObject.Add (exScore GradeCritical) (exCheck "check-a")).Grade = exObject.Grade ∧
     World.Add { objects := [exObject], scorecard := New } 0 (exScore GradeCritical)
       (exCheck "check-a") = some { objects := [exObject], scorecard := New } ∧
     exObject.addAll (exCalls ++ (exScore GradeCritical, exCheck "check-a") :: exCalls)
       = exObject.addAll (exCalls ++ exCalls)) :=
  ⟨by decide, by decide,
    Add_ignored_is_noop exObject (exScore GradeCritical) (exCheck "check-a") exCalls exCalls
      { objects := [exObject], scorecard := New } 0 (by decide) (by decide)⟩

/-- C3: in every state reached from the initial one by registrations and
`Add` calls, no outcome stored in any record has a check reference whose ID is
in the suppression set of that record. -/
theorem stored_checks_not_ignored (calls : List Call) (w : World)
    (hrun : World.init.run calls = some w) :
    ∀ so ∈ w.objects, ∀ s ∈ so.Checks, GoMap.get? so.ignoredChecks s.Check.ID = none := by
  apply World.run_keeps_unignored World.init w calls hrun
  intro so hso
  simp [World.init] at hso

theorem stored_checks_not_ignored_witness :
    World.init.run exRun = some exWorld ∧
    ∀ so ∈ exWorld.objects, ∀ s ∈ so.Checks, GoMap.get? so.ignoredChecks s.Check.ID = none :=
  ⟨by decide, stored_checks_not_ignored exRun exWorld (by decide)⟩

/-- C4: when the supplied check is not in the suppression set, `Add` appends
one outcome: the earlier outcomes stay in place and the new last one has the
grade, remark and comments of the outcome passed in and the supplied check.
After a sequence of `Add` calls the outcome list is the earlier list followed
by the calls with a check outside the suppression set, in call order. -/
theorem Add_appends_outcome (so : ScoredObject) (ts : TestScore) (check : Check)
    (calls : List (TestScore × Check))
    (h : GoMap.get? so.ignoredChecks check.ID = none) :
    (so.Add ts check).Checks = so.Checks ++
      [{ Check := check, Grade := ts.Grade, Comments := ts.Comments,
         MillenialComment := ts.MillenialComment }] ∧
    (so.Add ts check).Checks.length = so.Checks.length + 1 ∧
    (so.addAll calls).Checks = so.Checks ++
      (calls.filter (fun c => (GoMap.get? so.ignoredChecks c.2.ID).isNone)).map
        (fun c => { Check := c.2, Grade := c.1.Grade, Comments := c.1.Comments,
                    MillenialComment := c.1.MillenialComment }) := by
  refine ⟨?_, ?_, ScoredObject.addAll_Checks so calls⟩
  · rw [ScoredObject.Add_of_not_ignored so ts check h]
  · rw [ScoredObject.Add_of_not_ignored so ts check h]
    simp

theorem Add_appends_outcome_witness :
    GoMap.get? exObject.ignoredChecks (exCheck "check-c").ID = none ∧
    ((exObject.Add (exScore GradeWarning) (exCheck "check-c")).Checks = exObject.Checks ++
      [{ Check := exCheck "check-c", Grade := (exScore GradeWarning).Grade,
         Comments := (exScore GradeWarning).Comments,
         MillenialComment := (exScore GradeWarning).MillenialComment }] ∧
    (exObject.Add (exScore GradeWarning) (exCheck "check-c")).Checks.length
      = exObject.Checks.length + 1 ∧
    (exObject.addAll exCalls).Checks = exObject.Checks ++
      (exCalls.filter (fun c => (GoMap.get? exObject.ignoredChecks c.2.ID).isNone)).map
        (fun c => { Check := c.2, Grade := c.1.Grade, Comments := c.1.Comments,
                    MillenialComment := c.1.MillenialComment })) :=
  ⟨by decide,
    Add_appends_outcome exObject (exScore GradeWarning) (exCheck "check-c") exCalls (by decide)⟩

/-- C5: two `NewObject` calls with the same kind, api-version, namespace and
name return the same pointer, whatever the rest of the metadata of the second
call and whatever calls are made in between; a second call that follows the
first leaves the state as the first one made it, and from an empty registry
the registry then holds one entry. -/
theorem NewObject_same_identity (w : World) (objs : List ScoredObject) (tm : TypeMeta)
    (om1 om2 : ObjectMeta) (between : List Call) (w1 : World)
    (hname : om2.Name = om1.Name) (hns : om2.Namespace = om1.Namespace)
    (hrun : (w.NewObject tm om1).2.run between = some w1) :
    ((w.NewObject tm om1).2.NewObject tm om2).1 = (w.NewObject tm om1).1 ∧
    ((w.NewObject tm om1).2.NewObject tm om2).2 = (w.NewObject tm om1).2 ∧
    (((World.mk objs New).NewObject tm om1).2.NewObject tm om2).2.scorecard.length = 1 ∧
    w1.NewObject tm om2 = ((w.NewObject tm om1).1, w1) := by
  have hsecond : ∀ v : World, (v.NewObject tm om1).2.NewObject tm om2
      = ((v.NewObject tm om1).1, (v.NewObject tm om1).2) := by
    intro v
    apply World.NewObject_of_present
    rw [hname, hns]
    exact World.NewObject_get?_key v tm om1
  refine ⟨by rw [hsecond w], by rw [hsecond w], ?_, ?_⟩
  · rw [hsecond (World.mk objs New)]
    have h0 : GoMap.get? (World.mk objs New).scorecard
        (tm.Kind ++ "/" ++ tm.APIVersion ++ "/" ++ om1.Namespace ++ "/" ++ om1.Name) = none :=
      rfl
    rw [World.NewObject_of_absent _ tm om1 h0]
    rfl
  · apply World.NewObject_of_present
    rw [hname, hns]
    exact World.run_keeps_entries _ w1 between hrun _ _ (World.NewObject_get?_key w tm om1)

theorem NewObject_same_identity_witness :
    exObjectMetaLater.Name = exObjectMeta.Name ∧
    exObjectMetaLater.Namespace = exObjectMeta.Namespace ∧
    (World.init.NewObject exTypeMeta exObjectMeta).2.run exRun = some exWorld ∧
    (((World.init.NewObject exTypeMeta exObjectMeta).2.NewObject exTypeMeta exObjectMetaLater).1
      = (World.init.NewObject exTypeMeta exObjectMeta).1 ∧
    ((World.init.NewObject exTypeMeta exObjectMeta).2.NewObject exTypeMeta exObjectMetaLater).2
      = (World.init.NewObject exTypeMeta exObjectMeta).2 ∧
    (((World.mk [] New).NewObject exTypeMeta exObjectMeta).2.NewObject exTypeMeta
      exObjectMetaLater).2.scorecard.length = 1 ∧
    exWorld.NewObject exTypeMeta exObjectMetaLater
      = ((World.init.NewObject exTypeMeta exObjectMeta).1, exWorld)) :=
  ⟨by decide, by decide, by decide,
    NewObject_same_identity World.init [] exTypeMeta exObjectMeta exObjectMetaLater exRun
      exWorld (by decide) (by decide) (by decide)⟩

/-- C6: when the key of the identity is already in the registry, `NewObject`
returns the registered pointer and changes nothing in the state, so the record
behind the pointer keeps its metadata, outcomes and suppression set; an `Add`
through the returned pointer with a check that the registered record does not
ignore appends its outcome, whatever the annotations of the later call. -/
theorem NewObject_first_registration_wins (w : World) (tm : TypeMeta) (om : ObjectMeta)
    (p : Ptr) (so : ScoredObject) (ts : TestScore) (check : Check)
    (hkey : GoMap.get? w.scorecard
      (tm.Kind ++ "/" ++ tm.APIVersion ++ "/" ++ om.Namespace ++ "/" ++ om.Name) = some p)
    (hp : w.deref p = some so)
    (hcheck : GoMap.get? so.ignoredChecks check.ID = none) :
    w.NewObject tm om = (p, w) ∧
    (w.NewObject tm om).2.deref (w.NewObject tm om).1 = some so ∧
    ∃ w1, (w.NewObject tm om).2.Add (w.NewObject tm om).1 ts check = some w1 ∧
      w1.deref (w.NewObject tm om).1 =
        some { so with Checks := so.Checks ++ [{ ts with Check := check }] } := by
  have h := World.NewObject_of_present w tm om p hkey
  rw [h]
  refine ⟨rfl, hp, ?_⟩
  have hadd : w.Add p ts check = some { w with objects := w.objects.set p (so.Add ts check) } := by
    simp [World.Add, hp]
  refine ⟨_, hadd, ?_⟩
  have hd := World.deref_Add w _ p ts check hadd p
  rw [hd, if_pos rfl, hp, Option.map_some', ScoredObject.Add_of_not_ignored so ts check hcheck]

theorem NewObject_first_registration_wins_witness :
    GoMap.get? exWorld.scorecard
      (exTypeMeta.Kind ++ "/" ++ exTypeMeta.APIVersion ++ "/" ++ exObjectMetaLater.Namespace
        ++ "/" ++ exObjectMetaLater.Name) = some 0 ∧
    exWorld.deref 0 = some { exObject with
      Checks := [{ exScore GradeWarning with Check := exCheck "check-c" }] } ∧
    GoMap.get? exObject.ignoredChecks (exCheck "check-c").ID = none ∧
    (exWorld.NewObject exTypeMeta exObjectMetaLater = (0, exWorld) ∧
     (exWorld.NewObject exTypeMeta exObjectMetaLater).2.deref
       (exWorld.NewObject exTypeMeta exObjectMetaLater).1 = some { exObject with
         Checks := [{ exScore GradeWarning with Check := exCheck "check-c" }] } ∧
     ∃ w1, (exWorld.NewObject exTypeMeta exObjectMetaLater).2.Add
         (exWorld.NewObject exTypeMeta exObjectMetaLater).1 (exScore GradeCritical)
         (exCheck "check-c") = some w1 ∧
       w1.deref (exWorld.NewObject exTypeMeta exObjectMetaLater).1 =
         some { exObject with
           Checks := [{ exScore GradeWarning with Check := exCheck "check-c" }] ++
             [{ exScore GradeCritical with Check := exCheck "check-c" }] }) :=
  ⟨by decide, by decide, by decide,
    NewObject_first_registration_wins exWorld exTypeMeta exObjectMetaLater 0
      { exObject with Checks := [{ exScore GradeWarning with Check := exCheck "check-c" }] }
      (exScore GradeCritical) (exCheck "check-c") (by decide) (by decide) (by decide)⟩

/-- C7: two identities that differ only in the namespace have different keys,
and in a well-formed registry the two `NewObject` calls return different
pointers, each stored under its own key; from an empty registry the registry
ends with two entries. -/
theorem NewObject_namespaces_distinct (w : World) (objs : List ScoredObject) (tm : TypeMeta)
    (om1 om2 : ObjectMeta) (hname : om1.Name = om2.Name)
    (hns : om1.Namespace ≠ om2.Namespace) (hwf : w.WF) :
    tm.Kind ++ "/" ++ tm.APIVersion ++ "/" ++ om1.Namespace ++ "/" ++ om1.Name ≠
      tm.Kind ++ "/" ++ tm.APIVersion ++ "/" ++ om2.Namespace ++ "/" ++ om2.Name ∧
    (w.NewObject tm om1).1 ≠ ((w.NewObject tm om1).2.NewObject tm om2).1 ∧
    GoMap.get? ((w.NewObject tm om1).2.NewObject tm om2).2.scorecard
      (tm.Kind ++ "/" ++ tm.APIVersion ++ "/" ++ om1.Namespace ++ "/" ++ om1.Name)
      = some (w.NewObject tm om1).1 ∧
    GoMap.get? ((w.NewObject tm om1).2.NewObject tm om2).2.scorecard
      (tm.Kind ++ "/" ++ tm.APIVersion ++ "/" ++ om2.Namespace ++ "/" ++ om2.Name)
      = some ((w.NewObject tm om1).2.NewObject tm om2).1 ∧
    (((World.mk objs New).NewObject tm om1).2.NewObject tm om2).2.scorecard.length = 2 := by
  have hne := key_ne_of_namespace_ne tm om1 om2 hname hns
  exact ⟨hne, World.NewObject_ptr_ne w tm tm om1 om2 hwf hne,
    World.NewObject_keeps_entries _ tm om2 _ _ (World.NewObject_get?_key w tm om1),
    World.NewObject_get?_key _ tm om2,
    World.NewObject_two_entries objs tm tm om1 om2 hne⟩

theorem NewObject_namespaces_distinct_witness :
    exObjectMeta.Name = exObjectMetaStaging.Name ∧
    exObjectMeta.Namespace ≠ exObjectMetaStaging.Namespace ∧
    exWorld.WF ∧
    (exTypeMeta.Kind ++ "/" ++ exTypeMeta.APIVersion ++ "/" ++ exObjectMeta.Namespace ++ "/"
        ++ exObjectMeta.Name ≠
      exTypeMeta.Kind ++ "/" ++ exTypeMeta.APIVersion ++ "/" ++ exObjectMetaStaging.Namespace
        ++ "/" ++ exObjectMetaStaging.Name ∧
    (exWorld.NewObject exTypeMeta exObjectMeta).1 ≠
      ((exWorld.NewObject exTypeMeta exObjectMeta).2.NewObject exTypeMeta exObjectMetaStaging).1 ∧
    GoMap.get?
      ((exWorld.NewObject exTypeMeta exObjectMeta).2.NewObject exTypeMeta
        exObjectMetaStaging).2.scorecard
      (exTypeMeta.Kind ++ "/" ++ exTypeMeta.APIVersion ++ "/" ++ exObjectMeta.Namespace ++ "/"
        ++ exObjectMeta.Name)
      = some (exWorld.NewObject exTypeMeta exObjectMeta).1 ∧
    GoMap.get?
      ((exWorld.NewObject exTypeMeta exObjectMeta).2.NewObject exTypeMeta
        exObjectMetaStaging).2.scorecard
      (exTypeMeta.Kind ++ "/" ++ exTypeMeta.APIVersion ++ "/" ++ exObjectMetaStaging.Namespace
        ++ "/" ++ exObjectMetaStaging.Name)
      = some ((exWorld.NewObject exTypeMeta exObjectMeta).2.NewObject exTypeMeta
          exObjectMetaStaging).1 ∧
    (((World.mk [] New).NewObject exTypeMeta exObjectMeta).2.NewObject exTypeMeta
      exObjectMetaStaging).2.scorecard.length = 2) :=
  have hwf : exWorld.WF := World.run_WF World.init exWorld exRun (by decide) World.init_WF
  ⟨by decide, by decide, hwf,
    NewObject_namespaces_distinct exWorld [] exTypeMeta exObjectMeta exObjectMetaStaging
      (by decide) (by decide) hwf⟩

/-- C8, as stated, fails: the identities (Deployment/apps, v1, default, web)
and (Deployment, apps/v1, default, web) differ in kind and in api-version, yet
`resourceRefKey` gives both the key `Deployment/apps/v1/default/web`, and the
second `NewObject` returns the record of the first; the registry holds one
entry. -/
theorem resourceRefKey_collision :
    exTypeMetaSlash.Kind ≠ exTypeMeta.Kind ∧
    exTypeMetaSlash.APIVersion ≠ exTypeMeta.APIVersion ∧
    ScoredObject.resourceRefKey
      { TypeMeta := exTypeMetaSlash, ObjectMeta := exObjectMeta, Checks := [],
        ignoredChecks := [] } =
    ScoredObject.resourceRefKey
      { TypeMeta := exTypeMeta, ObjectMeta := exObjectMeta, Checks := [],
        ignoredChecks := [] } ∧
    ((World.init.NewObject exTypeMeta exObjectMeta).2.NewObject exTypeMetaSlash exObjectMeta).1
      = (World.init.NewObject exTypeMeta exObjectMeta).1 ∧
    ((World.init.NewObject exTypeMeta exObjectMeta).2.NewObject exTypeMetaSlash
      exObjectMeta).2.scorecard.length = 1 := by
  decide

/-- C8, amended: on identities whose kind, namespace and name hold no slash
(the api-version may hold any), `resourceRefKey` is injective: two identities
that differ in a component have different keys, and in a well-formed registry
`NewObject` returns different pointers for them, each stored under its own
key; from an empty registry the registry ends with two entries. -/
theorem resourceRefKey_injective_of_no_slash (w : World) (objs : List ScoredObject)
    (tm1 tm2 : TypeMeta) (om1 om2 : ObjectMeta)
    (hk1 : '/' ∉ tm1.Kind.data) (hk2 : '/' ∉ tm2.Kind.data)
    (hs1 : '/' ∉ om1.Namespace.data) (hs2 : '/' ∉ om2.Namespace.data)
    (hn1 : '/' ∉ om1.Name.data) (hn2 : '/' ∉ om2.Name.data)
    (hdiff : tm1.Kind ≠ tm2.Kind ∨ tm1.APIVersion ≠ tm2.APIVersion ∨
      om1.Namespace ≠ om2.Namespace ∨ om1.Name ≠ om2.Name)
    (hwf : w.WF) :
    ScoredObject.resourceRefKey
      { TypeMeta := tm1, ObjectMeta := om1, Checks := [], ignoredChecks := [] } ≠
    ScoredObject.resourceRefKey
      { TypeMeta := tm2, ObjectMeta := om2, Checks := [], ignoredChecks := [] } ∧
    (w.NewObject tm1 om1).1 ≠ ((w.NewObject tm1 om1).2.NewObject tm2 om2).1 ∧
    GoMap.get? ((w.NewObject tm1 om1).2.NewObject tm2 om2).2.scorecard
      (ScoredObject.resourceRefKey
        { TypeMeta := tm1, ObjectMeta := om1, Checks := [], ignoredChecks := [] })
      = some (w.NewObject tm1 om1).1 ∧
    GoMap.get? ((w.NewObject tm1 om1).2.NewObject tm2 om2).2.scorecard
      (ScoredObject.resourceRefKey
        { TypeMeta := tm2, ObjectMeta := om2, Checks := [], ignoredChecks := [] })
      = some ((w.NewObject tm1 om1).2.NewObject tm2 om2).1 ∧
    (((World.mk objs New).NewObject tm1 om1).2.NewObject tm2 om2).2.scorecard.length = 2 := by
  have hne : tm1.Kind ++ "/" ++ tm1.APIVersion ++ "/" ++ om1.Namespace ++ "/" ++ om1.Name ≠
      tm2.Kind ++ "/" ++ tm2.APIVersion ++ "/" ++ om2.Namespace ++ "/" ++ om2.Name := by
    intro h
    obtain ⟨e1, e2, e3, e4⟩ := key_injective tm1 tm2 om1 om2 hk1 hk2 hs1 hs2 hn1 hn2 h
    rcases hdiff with hd | hd | hd | hd
    · exact hd e1
    · exact hd e2
    · exact hd e3
    · exact hd e4
  exact ⟨hne, World.NewObject_ptr_ne w tm1 tm2 om1 om2 hwf hne,
    World.NewObject_keeps_entries _ tm2 om2 _ _ (World.NewObject_get?_key w tm1 om1),
    World.NewObject_get?_key _ tm2 om2,
    World.NewObject_two_entries objs tm1 tm2 om1 om2 hne⟩

theorem resourceRefKey_injective_of_no_slash_witness :
    '/' ∉ exTypeMeta.Kind.data ∧ '/' ∉ exObjectMeta.Namespace.data ∧
    '/' ∉ exObjectMeta.Name.data ∧ '/' ∉ exObjectMetaStaging.Namespace.data ∧
    '/' ∉ exObjectMetaStaging.Name.data ∧
    exObjectMeta.Namespace ≠ exObjectMetaStaging.Namespace ∧ World.init.WF ∧
    (World.init.NewObject exTypeMeta exObjectMeta).1 ≠
      ((World.init.NewObject exTypeMeta exObjectMeta).2.NewObject exTypeMeta
        exObjectMetaStaging).1 :=
  ⟨by decide, by decide, by decide, by decide, by decide, by decide, World.init_WF,
    (resourceRefKey_injective_of_no_slash World.init [] exTypeMeta exTypeMeta exObjectMeta
      exObjectMetaStaging (by decide) (by decide) (by decide) (by decide) (by decide)
      (by decide) (Or.inr (Or.inr (Or.inl (by decide)))) World.init_WF).2.1⟩

/-- C9: `AnyBelowOrEqualToGrade` of a record is true exactly when one of its
outcomes has a grade at or below the threshold; it is false for a record
without outcomes. -/
theorem AnyBelowOrEqualToGrade_iff_exists (so : ScoredObject) (threshold : Grade)
    (tm : TypeMeta) (om : ObjectMeta) (ignored : GoMap Unit) :
    (so.AnyBelowOrEqualToGrade threshold = true ↔ ∃ s ∈ so.Checks, s.Grade ≤ threshold) ∧
    ScoredObject.AnyBelowOrEqualToGrade
      { TypeMeta := tm, ObjectMeta := om, Checks := [], ignoredChecks := ignored } threshold
      = false :=
  ⟨ScoredObject.AnyBelowOrEqualToGrade_eq_true_iff so threshold, rfl⟩

/-- C10: on a registry whose pointers are all allocated, whatever the order in
which the entries are visited, `Scorecard.AnyBelowOrEqualToGrade` returns, and
it returns true exactly when a record of the registry holds an outcome with a
grade at or below the threshold.  With the threshold `GradeWarning` it is
false when all records hold almost-OK and OK outcomes only, and true when some
record holds a critical outcome. -/
theorem Scorecard_AnyBelowOrEqualToGrade_iff (w : World) (order : List (String × Ptr))
    (threshold : Grade)
    (halloc : ∀ e ∈ w.scorecard, (w.deref e.2).isSome = true)
    (horder : order.Perm w.scorecard) :
    (∃ b, w.AnyBelowOrEqualToGrade order threshold = some b ∧
      (b = true ↔ ∃ e ∈ w.scorecard, ∃ so, w.deref e.2 = some so ∧
        ∃ s ∈ so.Checks, s.Grade ≤ threshold)) ∧
    ((∀ e ∈ w.scorecard, ∀ so, w.deref e.2 = some so →
        ∀ s ∈ so.Checks, s.Grade = GradeAlmostOK ∨ s.Grade = GradeAllOK) →
      w.AnyBelowOrEqualToGrade order GradeWarning = some false) ∧
    ((∃ e ∈ w.scorecard, ∃ so, w.deref e.2 = some so ∧
        ∃ s ∈ so.Checks, s.Grade = GradeCritical) →
      w.AnyBelowOrEqualToGrade order GradeWarning = some true) := by
  have hmain : ∀ t : Grade, ∃ b, w.AnyBelowOrEqualToGrade order t = some b ∧
      (b = true ↔ ∃ e ∈ w.scorecard, ∃ so, w.deref e.2 = some so ∧
        ∃ s ∈ so.Checks, s.Grade ≤ t) := by
    intro t
    obtain ⟨b, hb, hiff⟩ := World.AnyBelowOrEqualToGrade_loop w t order
      (fun e he => halloc e (horder.mem_iff.mp he))
    refine ⟨b, hb, ?_⟩
    rw [hiff]
    constructor
    · rintro ⟨e, he, so, h1, h2⟩
      exact ⟨e, horder.mem_iff.mp he, so, h1,
        (ScoredObject.AnyBelowOrEqualToGrade_eq_true_iff so t).mp h2⟩
    · rintro ⟨e, he, so, h1, h2⟩
      exact ⟨e, horder.mem_iff.mpr he, so, h1,
        (ScoredObject.AnyBelowOrEqualToGrade_eq_true_iff so t).mpr h2⟩
  refine ⟨hmain threshold, ?_, ?_⟩
  · intro hall
    obtain ⟨b, hb, hiff⟩ := hmain GradeWarning
    cases b with
    | false => exact hb
    | true =>
      obtain ⟨e, he, so, h1, s, hs, hle⟩ := hiff.mp rfl
      rcases hall e he so h1 s hs with hg | hg <;> rw [hg] at hle <;>
        exact absurd hle (by decide)
  · rintro ⟨e, he, so, h1, s, hs, hg⟩
    obtain ⟨b, hb, hiff⟩ := hmain GradeWarning
    have hle : s.Grade ≤ GradeWarning := by
      rw [hg]
      decide
    rw [hb, hiff.mpr ⟨e, he, so, h1, s, hs, hle⟩]

theorem Scorecard_AnyBelowOrEqualToGrade_iff_witness :
    (∀ e ∈ exFleet.scorecard, (exFleet.deref e.2).isSome = true) ∧
    exFleet.scorecard.reverse.Perm exFleet.scorecard ∧
    exFleet.AnyBelowOrEqualToGrade exFleet.scorecard.reverse GradeWarning = some true ∧
    ((∃ b, exFleet.AnyBelowOrEqualToGrade exFleet.scorecard.reverse GradeWarning = some b ∧
      (b = true ↔ ∃ e ∈ exFleet.scorecard, ∃ so, exFleet.deref e.2 = some so ∧
        ∃ s ∈ so.Checks, s.Grade ≤ GradeWarning)) ∧
    ((∀ e ∈ exFleet.scorecard, ∀ so, exFleet.deref e.2 = some so →
        ∀ s ∈ so.Checks, s.Grade = GradeAlmostOK ∨ s.Grade = GradeAllOK) →
      exFleet.AnyBelowOrEqualToGrade exFleet.scorecard.reverse GradeWarning = some false) ∧
    ((∃ e ∈ exFleet.scorecard, ∃ so, exFleet.deref e.2 = some so ∧
        ∃ s ∈ so.Checks, s.Grade = GradeCritical) →
      exFleet.AnyBelowOrEqualToGrade exFleet.scorecard.reverse GradeWarning = some true)) :=
  ⟨by decide, List.reverse_perm _, by decide,
    Scorecard_AnyBelowOrEqualToGrade_iff exFleet exFleet.scorecard.reverse GradeWarning
      (by decide) (List.reverse_perm _)⟩

/-- C11: on a resource newly registered with the value `v` of the annotation
`kube-score/ignore`, every `Add` call, the first one or one that follows any
sequence of earlier `Add` calls, is discarded (the outcome list stays as it is)
exactly when the ID of the supplied check is the trimmed form of one of the
pieces of `v` between commas; this holds for every check ID, the empty one
included. -/
theorem Add_discarded_iff_trimmed_piece (w : World) (tm : TypeMeta) (om : ObjectMeta)
    (v : String) (calls : List (TestScore × Check)) (ts : TestScore) (check : Check)
    (hfresh : GoMap.get? w.scorecard
      (tm.Kind ++ "/" ++ tm.APIVersion ++ "/" ++ om.Namespace ++ "/" ++ om.Name) = none)
    (hann : GoMap.get? om.Annotations "kube-score/ignore" = some v) :
    ∃ so, (w.NewObject tm om).2.deref (w.NewObject tm om).1 = some so ∧
      (((so.addAll calls).Add ts check).Checks = (so.addAll calls).Checks ↔
        ∃ piece ∈ Split v ',', check.ID = TrimSpace piece) ∧
      ((so.addAll calls).Add ts check = so.addAll calls ↔
        ∃ piece ∈ Split v ',', check.ID = TrimSpace piece) ∧
      ((so.Add ts check).Checks = so.Checks ↔
        ∃ piece ∈ Split v ',', check.ID = TrimSpace piece) ∧
      (so.Add ts check = so ↔ ∃ piece ∈ Split v ',', check.ID = TrimSpace piece) := by
  have hset : ∀ cs : List (TestScore × Check),
      (GoMap.get? ((ScoredObject.setIgnoredTests (ScoredObject.mk tm om [] [])).addAll
        cs).ignoredChecks check.ID = some () ↔
        ∃ piece ∈ Split v ',', check.ID = TrimSpace piece) := by
    intro cs
    rw [ScoredObject.addAll_ignoredChecks]
    exact ScoredObject.setIgnoredTests_get? (ScoredObject.mk tm om [] []) v check.ID hann
  have hrec : ∀ cs : List (TestScore × Check),
      (((ScoredObject.setIgnoredTests (ScoredObject.mk tm om [] [])).addAll cs).Add ts check
        = (ScoredObject.setIgnoredTests (ScoredObject.mk tm om [] [])).addAll cs ↔
        ∃ piece ∈ Split v ',', check.ID = TrimSpace piece) := by
    intro cs
    rw [← hset cs, ← ScoredObject.Add_Checks_eq_iff _ ts check]
    constructor
    · intro h
      rw [h]
    · intro h
      rw [ScoredObject.Add_of_ignored _ ts check
        ((ScoredObject.Add_Checks_eq_iff _ ts check).mp h)]
  refine ⟨_, World.NewObject_deref_of_absent w tm om hfresh, ?_, hrec calls, ?_, hrec []⟩
  · rw [ScoredObject.Add_Checks_eq_iff]
    exact hset calls
  · rw [ScoredObject.Add_Checks_eq_iff]
    exact hset []

theorem Add_discarded_iff_trimmed_piece_witness :
    GoMap.get? World.init.scorecard
      (exTypeMeta.Kind ++ "/" ++ exTypeMeta.APIVersion ++ "/" ++ exObjectMeta.Namespace ++ "/"
        ++ exObjectMeta.Name) = none ∧
    GoMap.get? exObjectMeta.Annotations "kube-score/ignore" = some "check-a, check-b" ∧
    Split "check-a, check-b" ',' = ["check-a", " check-b"] ∧
    TrimSpace " check-b" = "check-b" ∧
    ∃ so, (World.init.NewObject exTypeMeta exObjectMeta).2.deref
        (World.init.NewObject exTypeMeta exObjectMeta).1 = some so ∧
      (((so.addAll exCalls).Add (exScore GradeCritical) (exCheck "check-b")).Checks
          = (so.addAll exCalls).Checks ↔
        ∃ piece ∈ Split "check-a, check-b" ',', (exCheck "check-b").ID = TrimSpace piece) ∧
      ((so.addAll exCalls).Add (exScore GradeCritical) (exCheck "check-b") = so.addAll exCalls ↔
        ∃ piece ∈ Split "check-a, check-b" ',', (exCheck "check-b").ID = TrimSpace piece) ∧
      ((so.Add (exScore GradeCritical) (exCheck "check-b")).Checks = so.Checks ↔
        ∃ piece ∈ Split "check-a, check-b" ',', (exCheck "check-b").ID = TrimSpace piece) ∧
      (so.Add (exScore GradeCritical) (exCheck "check-b") = so ↔
        ∃ piece ∈ Split "check-a, check-b" ',', (exCheck "check-b").ID = TrimSpace piece) :=
  ⟨by decide, by decide, by decide, by decide,
    Add_discarded_iff_trimmed_piece World.init exTypeMeta exObjectMeta "check-a, check-b"
      exCalls (exScore GradeCritical) (exCheck "check-b") (by decide) (by decide)⟩

/-- C12, as stated, fails: with the empty annotation value the suppression set
built at registration holds the empty string, and an `Add` call whose check
has the empty ID is discarded. -/
theorem empty_annotation_ignores_empty_id :
    ((World.init.NewObject exTypeMeta exObjectMetaEmptyIgnore).2.deref
      (World.init.NewObject exTypeMeta exObjectMetaEmptyIgnore).1).map
        (fun so => so.ignoredChecks) = some [("", ())] ∧
    ((World.init.NewObject exTypeMeta exObjectMetaEmptyIgnore).2.deref
      (World.init.NewObject exTypeMeta exObjectMetaEmptyIgnore).1).map
        (fun so => (so.Add (exScore GradeCritical) (exCheck "")).Checks) = some [] := by
  decide

/-- C12, amended: on a resource newly registered with the value `v` of the
annotation `kube-score/ignore`, at registration and after any sequence of
`Add` calls, every string of the suppression set is the trimmed form of a
piece of `v` and neither starts nor ends with white space (it may be the empty
string); when `v` is empty the set holds no other string than the empty one,
so every `Add` call with a non-empty check ID, the first one or one that
follows any sequence of earlier `Add` calls, appends its outcome, and the
outcome list after a sequence of calls with non-empty check IDs holds all of
them in call order. -/
theorem ignoredChecks_trimmed (w : World) (tm : TypeMeta) (om : ObjectMeta) (v : String)
    (calls : List (TestScore × Check))
    (hfresh : GoMap.get? w.scorecard
      (tm.Kind ++ "/" ++ tm.APIVersion ++ "/" ++ om.Namespace ++ "/" ++ om.Name) = none)
    (hann : GoMap.get? om.Annotations "kube-score/ignore" = some v) :
    ∃ so, (w.NewObject tm om).2.deref (w.NewObject tm om).1 = some so ∧
      (∀ c, GoMap.get? so.ignoredChecks c = some () →
        (∃ piece ∈ Split v ',', c = TrimSpace piece) ∧
        (∀ x, c.data.head? = some x → isSpace x = false) ∧
        (∀ x, c.data.getLast? = some x → isSpace x = false)) ∧
      (∀ c, GoMap.get? (so.addAll calls).ignoredChecks c = some () →
        (∃ piece ∈ Split v ',', c = TrimSpace piece) ∧
        (∀ x, c.data.head? = some x → isSpace x = false) ∧
        (∀ x, c.data.getLast? = some x → isSpace x = false)) ∧
      (v = "" → ∀ ts check, check.ID ≠ "" →
        (so.Add ts check).Checks = so.Checks ++
          [{ Check := check, Grade := ts.Grade, Comments := ts.Comments,
             MillenialComment := ts.MillenialComment }]) ∧
      (v = "" → ∀ ts check, check.ID ≠ "" →
        ((so.addAll calls).Add ts check).Checks = (so.addAll calls).Checks ++
          [{ Check := check, Grade := ts.Grade, Comments := ts.Comments,
             MillenialComment := ts.MillenialComment }]) ∧
      (v = "" → (∀ c ∈ calls, c.2.ID ≠ "") →
        (so.addAll calls).Checks = calls.map (fun c =>
          { Check := c.2, Grade := c.1.Grade, Comments := c.1.Comments,
            MillenialComment := c.1.MillenialComment })) := by
  have hmem : ∀ c, GoMap.get? (ScoredObject.setIgnoredTests
      (ScoredObject.mk tm om [] [])).ignoredChecks c = some () →
      (∃ piece ∈ Split v ',', c = TrimSpace piece) ∧
      (∀ x, c.data.head? = some x → isSpace x = false) ∧
      (∀ x, c.data.getLast? = some x → isSpace x = false) := by
    intro c hc
    have hp := (ScoredObject.setIgnoredTests_get? (ScoredObject.mk tm om [] []) v c hann).mp hc
    obtain ⟨piece, hpiece, rfl⟩ := hp
    exact ⟨⟨piece, hpiece, rfl⟩, fun x hx => TrimSpace_head piece x hx,
      fun x hx => TrimSpace_getLast piece x hx⟩
  have hnot : v = "" → ∀ id : String, id ≠ "" →
      GoMap.get? (ScoredObject.setIgnoredTests
        (ScoredObject.mk tm om [] [])).ignoredChecks id = none := by
    intro hv id hid
    subst hv
    cases hg : GoMap.get? (ScoredObject.setIgnoredTests
        (ScoredObject.mk tm om [] [])).ignoredChecks id with
    | none => rfl
    | some u =>
      obtain ⟨piece, hpiece, he⟩ :=
        (ScoredObject.setIgnoredTests_get? (ScoredObject.mk tm om [] []) "" id hann).mp hg
      have hsplit : Split "" ',' = [""] := by decide
      rw [hsplit, List.mem_singleton] at hpiece
      rw [hpiece] at he
      exact absurd he hid
  have happ : ∀ cs : List (TestScore × Check), v = "" → ∀ ts check, check.ID ≠ "" →
      (((ScoredObject.setIgnoredTests (ScoredObject.mk tm om [] [])).addAll cs).Add ts
        check).Checks =
      ((ScoredObject.setIgnoredTests (ScoredObject.mk tm om [] [])).addAll cs).Checks ++
        [{ Check := check, Grade := ts.Grade, Comments := ts.Comments,
           MillenialComment := ts.MillenialComment }] := by
    intro cs hv ts check hid
    have hn : GoMap.get? ((ScoredObject.setIgnoredTests
        (ScoredObject.mk tm om [] [])).addAll cs).ignoredChecks check.ID = none := by
      rw [ScoredObject.addAll_ignoredChecks]
      exact hnot hv check.ID hid
    rw [ScoredObject.Add_of_not_ignored _ ts check hn]
  refine ⟨_, World.NewObject_deref_of_absent w tm om hfresh, hmem, ?_, happ [], happ calls, ?_⟩
  · intro c hc
    rw [ScoredObject.addAll_ignoredChecks] at hc
    exact hmem c hc
  · intro hv hids
    rw [ScoredObject.addAll_Checks]
    have hfilter : calls.filter (fun c => (GoMap.get? (ScoredObject.setIgnoredTests
        (ScoredObject.mk tm om [] [])).ignoredChecks c.2.ID).isNone) = calls := by
      apply List.filter_eq_self.mpr
      intro c hc
      rw [hnot hv c.2.ID (hids c hc)]
      rfl
    rw [hfilter]
    rfl

theorem ignoredChecks_trimmed_witness :
    GoMap.get? World.init.scorecard
      (exTypeMeta.Kind ++ "/" ++ exTypeMeta.APIVersion ++ "/" ++ exObjectMetaEmptyIgnore.Namespace
        ++ "/" ++ exObjectMetaEmptyIgnore.Name) = none ∧
    GoMap.get? exObjectMetaEmptyIgnore.Annotations "kube-score/ignore" = some "" ∧
    ∃ so, (World.init.NewObject exTypeMeta exObjectMetaEmptyIgnore).2.deref
        (World.init.NewObject exTypeMeta exObjectMetaEmptyIgnore).1 = some so ∧
      (∀ c, GoMap.get? so.ignoredChecks c = some () →
        (∃ piece ∈ Split "" ',', c = TrimSpace piece) ∧
        (∀ x, c.data.head? = some x → isSpace x = false) ∧
        (∀ x, c.data.getLast? = some x → isSpace x = false)) ∧
      (∀ c, GoMap.get? (so.addAll exCalls).ignoredChecks c = some () →
        (∃ piece ∈ Split "" ',', c = TrimSpace piece) ∧
        (∀ x, c.data.head? = some x → isSpace x = false) ∧
        (∀ x, c.data.getLast? = some x → isSpace x = false)) ∧
      ("" = "" → ∀ ts check, check.ID ≠ "" →
        (so.Add ts check).Checks = so.Checks ++
          [{ Check := check, Grade := ts.Grade, Comments := ts.Comments,
             MillenialComment := ts.MillenialComment }]) ∧
      ("" = "" → ∀ ts check, check.ID ≠ "" →
        ((so.addAll exCalls).Add ts check).Checks = (so.addAll exCalls).Checks ++
          [{ Check := check, Grade := ts.Grade, Comments := ts.Comments,
             MillenialComment := ts.MillenialComment }]) ∧
      ("" = "" → (∀ c ∈ exCalls, c.2.ID ≠ "") →
        (so.addAll exCalls).Checks = exCalls.map (fun c =>
          { Check := c.2, Grade := c.1.Grade, Comments := c.1.Comments,
            MillenialComment := c.1.MillenialComment })) :=
  ⟨by decide, by decide,
    ignoredChecks_trimmed World.init exTypeMeta exObjectMetaEmptyIgnore "" exCalls (by decide)
      (by decide)⟩

/-- C13: a resource without the annotation `kube-score/ignore` is registered
with an empty suppression set: `NewObject` returns an allocated record, and
every `Add` call on it, first or later, for any check, appends its outcome. -/
theorem no_annotation_ignores_nothing (w : World) (tm : TypeMeta) (om : ObjectMeta)
    (calls : List (TestScore × Check))
    (hfresh : GoMap.get? w.scorecard
      (tm.Kind ++ "/" ++ tm.APIVersion ++ "/" ++ om.Namespace ++ "/" ++ om.Name) = none)
    (hnone : GoMap.get? om.Annotations "kube-score/ignore" = none) :
    ∃ so, (w.NewObject tm om).2.deref (w.NewObject tm om).1 = some so ∧
      so.ignoredChecks = [] ∧ so.Checks = [] ∧
      (so.addAll calls).Checks = calls.map (fun c =>
        { Check := c.2, Grade := c.1.Grade, Comments := c.1.Comments,
          MillenialComment := c.1.MillenialComment }) ∧
      ∀ ts check, ((so.addAll calls).Add ts check).Checks = (so.addAll calls).Checks ++
        [{ Check := check, Grade := ts.Grade, Comments := ts.Comments,
           MillenialComment := ts.MillenialComment }] := by
  have hig := ScoredObject.setIgnoredTests_of_no_annotation
    { TypeMeta := tm, ObjectMeta := om, Checks := [], ignoredChecks := [] } hnone
  refine ⟨_, World.NewObject_deref_of_absent w tm om hfresh, hig, rfl, ?_, ?_⟩
  · rw [ScoredObject.addAll_Checks, hig]
    simp [GoMap.get?, ScoredObject.setIgnoredTests]
  · intro ts check
    have hnot : GoMap.get? ((ScoredObject.setIgnoredTests
        { TypeMeta := tm, ObjectMeta := om, Checks := [], ignoredChecks := [] }).addAll
        calls).ignoredChecks check.ID = none := by
      rw [ScoredObject.addAll_ignoredChecks, hig]
      rfl
    rw [ScoredObject.Add_of_not_ignored _ ts check hnot]

theorem no_annotation_ignores_nothing_witness :
    GoMap.get? World.init.scorecard
      (exTypeMeta.Kind ++ "/" ++ exTypeMeta.APIVersion ++ "/" ++ exObjectMetaStaging.Namespace
        ++ "/" ++ exObjectMetaStaging.Name) = none ∧
    GoMap.get? exObjectMetaStaging.Annotations "kube-score/ignore" = none ∧
    ∃ so, (World.init.NewObject exTypeMeta exObjectMetaStaging).2.deref
        (World.init.NewObject exTypeMeta exObjectMetaStaging).1 = some so ∧
      so.ignoredChecks = [] ∧ so.Checks = [] ∧
      (so.addAll exCalls).Checks = exCalls.map (fun c =>
        { Check := c.2, Grade := c.1.Grade, Comments := c.1.Comments,
          MillenialComment := c.1.MillenialComment }) ∧
      ∀ ts check, ((so.addAll exCalls).Add ts check).Checks = (so.addAll exCalls).Checks ++
        [{ Check := check, Grade := ts.Grade, Comments := ts.Comments,
           MillenialComment := ts.MillenialComment }] :=
  ⟨by decide, by decide,
    no_annotation_ignores_nothing World.init exTypeMeta exObjectMetaStaging exCalls
      (by decide) (by decide)⟩

/-- C14: `HumanFriendlyRef` is the name, then a slash and the namespace when
the namespace is not empty, then a blank, the api-version, a slash and the
kind; the two examples of the spec are evaluated. -/
theorem HumanFriendlyRef_format (so : ScoredObject) (checks : List TestScore)
    (ignored : GoMap Unit) :
    so.HumanFriendlyRef =
      (if so.ObjectMeta.Namespace = "" then
        so.ObjectMeta.Name ++ " " ++ so.TypeMeta.APIVersion ++ "/" ++ so.TypeMeta.Kind
      else
        so.ObjectMeta.Name ++ "/" ++ so.ObjectMeta.Namespace ++ " " ++ so.TypeMeta.APIVersion
          ++ "/" ++ so.TypeMeta.Kind) ∧
    ScoredObject.HumanFriendlyRef
      { TypeMeta := { Kind := "Deployment", APIVersion := "apps/v1" },
        ObjectMeta := { Name := "web", GenerateName := "", Namespace := "default",
                        Labels := [], Annotations := [] },
        Checks := checks, ignoredChecks := ignored } = "web/default apps/v1/Deployment" ∧
    ScoredObject.HumanFriendlyRef
      { TypeMeta := { Kind := "Deployment", APIVersion := "apps/v1" },
        ObjectMeta := { Name := "web", GenerateName := "", Namespace := "",
                        Labels := [], Annotations := [] },
        Checks := checks, ignoredChecks := ignored } = "web apps/v1/Deployment" := by
  refine ⟨?_, by rfl, by rfl⟩
  by_cases h : so.ObjectMeta.Namespace = ""
  · simp [ScoredObject.HumanFriendlyRef, h, String.append_assoc]
  · simp [ScoredObject.HumanFriendlyRef, h, String.append_assoc]

/-- C15: each of `String`, `Emoji` and `Color` panics exactly when the grade is
none of 1, 5, 7 and 10, and `String` gives the four labels. -/
theorem Grade_display_panics_iff_invalid (g : Grade) :
    (Grade.String g = none ↔ ¬ (g = 1 ∨ g = 5 ∨ g = 7 ∨ g = 10)) ∧
    (Grade.Emoji g = none ↔ ¬ (g = 1 ∨ g = 5 ∨ g = 7 ∨ g = 10)) ∧
    (Grade.Color g = none ↔ ¬ (g = 1 ∨ g = 5 ∨ g = 7 ∨ g = 10)) ∧
    Grade.String 1 = some "CRITICAL" ∧ Grade.String 5 = some "WARNING" ∧
    Grade.String 7 = some "~ OK" ∧ Grade.String 10 = some "OK" ∧
    GradeCritical = 1 ∧ GradeWarning = 5 ∧ GradeAlmostOK = 7 ∧ GradeAllOK = 10 := by
  refine ⟨?_, ?_, ?_, by decide, by decide, by decide, by decide, rfl, rfl, rfl, rfl⟩
  · unfold Grade.String GradeCritical GradeWarning GradeAlmostOK GradeAllOK
    by_cases h1 : g = 1
    · simp [h1]
    · by_cases h5 : g = 5
      · simp [h5]
      · by_cases h7 : g = 7
        · simp [h7]
        · by_cases h10 : g = 10
          · simp [h10]
          · simp [h1, h5, h7, h10]
  · unfold Grade.Emoji GradeCritical GradeWarning GradeAlmostOK GradeAllOK
    by_cases h1 : g = 1
    · simp [h1]
    · by_cases h5 : g = 5
      · simp [h5]
      · by_cases h7 : g = 7
        · simp [h7]
        · by_cases h10 : g = 10
          · simp [h10]
          · simp [h1, h5, h7, h10]
  · unfold Grade.Color GradeCritical GradeWarning GradeAlmostOK GradeAllOK
    by_cases h1 : g = 1
    · simp [h1]
    · by_cases h5 : g = 5
      · simp [h5]
      · by_cases h7 : g = 7
        · simp [h7]
        · by_cases h10 : g = 10
          · simp [h10]
          · simp [h1, h5, h7, h10]

/-- C16: `AddComment` appends one comment with the three fields given, keeps
the earlier comments, the grade, the check reference and the remark; adding a
comment to an outcome held by a record, or to an outcome before it is added,
changes neither `Grade()` nor `AnyBelowOrEqualToGrade` of the record. -/
theorem AddComment_appends_comment (ts : TestScore) (path summary description : String)
    (so : ScoredObject) (i : Nat) (threshold : Grade) (check : Check)
    (h : so.Checks[i]? = some ts) :
    (ts.AddComment path summary description).Comments = ts.Comments ++
      [{ Path := path, Summary := summary, Description := description }] ∧
    (ts.AddComment path summary description).Comments.length = ts.Comments.length + 1 ∧
    (ts.AddComment path summary description).Grade = ts.Grade ∧
    (ts.AddComment path summary description).Check = ts.Check ∧
    (ts.AddComment path summary description).MillenialComment = ts.MillenialComment ∧
    ScoredObject.Grade
      { so with Checks := so.Checks.set i (ts.AddComment path summary description) }
      = so.Grade ∧
    ScoredObject.AnyBelowOrEqualToGrade
      { so with Checks := so.Checks.set i (ts.AddComment path summary description) } threshold
      = so.AnyBelowOrEqualToGrade threshold ∧
    (so.Add (ts.AddComment path summary description) check).Grade = (so.Add ts check).Grade ∧
    (so.Add (ts.AddComment path summary description) check).AnyBelowOrEqualToGrade threshold
      = (so.Add ts check).AnyBelowOrEqualToGrade threshold := by
  have hset := map_Grade_set so.Checks i ts (ts.AddComment path summary description) h rfl
  have hadd : (so.Add (ts.AddComment path summary description) check).Checks.map
      (fun s => s.Grade) = (so.Add ts check).Checks.map (fun s => s.Grade) := by
    cases hc : GoMap.get? so.ignoredChecks check.ID with
    | some u =>
      rw [ScoredObject.Add_of_ignored so _ check hc, ScoredObject.Add_of_ignored so _ check hc]
    | none =>
      rw [ScoredObject.Add_of_not_ignored so _ check hc,
        ScoredObject.Add_of_not_ignored so _ check hc]
      simp [TestScore.AddComment]
  refine ⟨rfl, by simp [TestScore.AddComment], rfl, rfl, rfl, ?_, ?_, ?_, ?_⟩
  · exact ScoredObject.Grade_congr _ so hset
  · exact ScoredObject.AnyBelowOrEqualToGrade_congr _ so threshold hset
  · exact ScoredObject.Grade_congr _ _ hadd
  · exact ScoredObject.AnyBelowOrEqualToGrade_congr _ _ threshold hadd

theorem AddComment_appends_comment_witness :
    exScored.Checks[1]? = some { exScore GradeWarning with Check := exCheck "check-d" } ∧
    ScoredObject.Grade
      { exScored with
        Checks := (exScored.Checks.set 1
          (TestScore.AddComment { exScore GradeWarning with Check := exCheck "check-d" }
            "deploy.yaml" "no limits" "set resource limits")) }
      = exScored.Grade :=
  ⟨by decide,
    (AddComment_appends_comment { exScore GradeWarning with Check := exCheck "check-d" }
      "deploy.yaml" "no limits" "set resource limits" exScored 1 GradeWarning
      (exCheck "check-d") (by decide)).2.2.2.2.2.1⟩

/-- C17: an `Add` call, discarded or not, and any sequence of `Add` calls keep
the kind, api-version, namespace and name of the record, its metadata, its
suppression set, its registry key and its `HumanFriendlyRef`; through a
pointer, the call keeps them for every allocated record and keeps the
registry. -/
theorem Add_keeps_identity (so : ScoredObject) (ts : TestScore) (check : Check)
    (calls : List (TestScore × Check)) (w w1 : World) (p q : Ptr)
    (hadd : w.Add p ts check = some w1) :
    (so.Add ts check).TypeMeta = so.TypeMeta ∧
    (so.Add ts check).ObjectMeta = so.ObjectMeta ∧
    (so.Add ts check).ignoredChecks = so.ignoredChecks ∧
    (so.Add ts check).resourceRefKey = so.resourceRefKey ∧
    (so.Add ts check).HumanFriendlyRef = so.HumanFriendlyRef ∧
    (so.addAll calls).TypeMeta = so.TypeMeta ∧
    (so.addAll calls).ObjectMeta = so.ObjectMeta ∧
    (so.addAll calls).ignoredChecks = so.ignoredChecks ∧
    (so.addAll calls).resourceRefKey = so.resourceRefKey ∧
    (so.addAll calls).HumanFriendlyRef = so.HumanFriendlyRef ∧
    w1.scorecard = w.scorecard ∧
    (w1.deref q).map (fun o => (o.TypeMeta, o.ObjectMeta, o.ignoredChecks)) =
      (w.deref q).map (fun o => (o.TypeMeta, o.ObjectMeta, o.ignoredChecks)) := by
  have hone : ∀ (o : ScoredObject) (t : TestScore) (c : Check),
      (o.Add t c).TypeMeta = o.TypeMeta ∧ (o.Add t c).ObjectMeta = o.ObjectMeta ∧
        (o.Add t c).ignoredChecks = o.ignoredChecks := by
    intro o t c
    unfold ScoredObject.Add
    split <;> exact ⟨rfl, rfl, rfl⟩
  have hall : ∀ (cs : List (TestScore × Check)) (o : ScoredObject),
      (o.addAll cs).TypeMeta = o.TypeMeta ∧ (o.addAll cs).ObjectMeta = o.ObjectMeta ∧
        (o.addAll cs).ignoredChecks = o.ignoredChecks := by
    intro cs
    induction cs with
    | nil => exact fun o => ⟨rfl, rfl, rfl⟩
    | cons c cs ih =>
      intro o
      rw [ScoredObject.addAll_cons]
      obtain ⟨h1, h2, h3⟩ := ih (o.Add c.1 c.2)
      obtain ⟨g1, g2, g3⟩ := hone o c.1 c.2
      exact ⟨h1.trans g1, h2.trans g2, h3.trans g3⟩
  obtain ⟨a1, a2, a3⟩ := hone so ts check
  obtain ⟨b1, b2, b3⟩ := hall calls so
  refine ⟨a1, a2, a3, ?_, ?_, b1, b2, b3, ?_, ?_, ?_, ?_⟩
  · simp only [ScoredObject.resourceRefKey, a1, a2]
  · simp only [ScoredObject.HumanFriendlyRef, a1, a2]
  · simp only [ScoredObject.resourceRefKey, b1, b2]
  · simp only [ScoredObject.HumanFriendlyRef, b1, b2]
  · unfold World.Add at hadd
    cases hp : w.deref p with
    | none => simp [hp] at hadd
    | some o =>
      simp only [hp, Option.some.injEq] at hadd
      rw [← hadd]
  · rw [World.deref_Add w w1 p ts check hadd q]
    by_cases hq : q = p
    · subst hq
      rw [if_pos rfl]
      cases hd : w.deref q with
      | none => rfl
      | some o =>
        obtain ⟨c1, c2, c3⟩ := hone o ts check
        simp [c1, c2, c3]
    · rw [if_neg hq]

theorem Add_keeps_identity_witness :
    exWorld.Add 0 (exScore GradeCritical) (exCheck "check-d") =
      some { exWorld with objects := [{ exObject with
        Checks := [{ exScore GradeWarning with Check := exCheck "check-c" },
                   { exScore GradeCritical with Check := exCheck "check-d" }] }] } ∧
    (exObject.Add (exScore GradeCritical) (exCheck "check-d")).resourceRefKey
      = exObject.resourceRefKey :=
  ⟨by decide,
    (Add_keeps_identity exObject (exScore GradeCritical) (exCheck "check-d") exCalls exWorld
      { exWorld with objects := [{ exObject with
        Checks := [{ exScore GradeWarning with Check := exCheck "check-c" },
                   { exScore GradeCritical with Check := exCheck "check-d" }] }] }
      0 0 (by decide)).2.2.2.1⟩

/-- C18: for an `Add` call that is not discarded, `Grade()` after the call is
the lower of `Grade()` before and the grade passed in, so it does not exceed
the grade before; after any sequence of `Add` calls the recomputed `Grade()`
is the running minimum kept from the grade before, and it does not exceed the
grade before. -/
theorem Grade_Add_eq_min (so : ScoredObject) (ts : TestScore) (check : Check)
    (calls : List (TestScore × Check))
    (h : GoMap.get? so.ignoredChecks check.ID = none) :
    (so.Add ts check).Grade = min so.Grade ts.Grade ∧
    (so.Add ts check).Grade ≤ so.Grade ∧
    (so.addAll calls).Grade = runningMinimum so.ignoredChecks so.Grade calls ∧
    (so.addAll calls).Grade ≤ so.Grade := by
  have hmin : (so.Add ts check).Grade = min so.Grade ts.Grade := by
    rw [ScoredObject.Grade_Add, h]
  have hrun : ∀ (cs : List (TestScore × Check)) (o : ScoredObject),
      (o.addAll cs).Grade = runningMinimum o.ignoredChecks o.Grade cs ∧
        (o.addAll cs).Grade ≤ o.Grade := by
    intro cs
    induction cs with
    | nil => exact fun o => ⟨rfl, le_refl _⟩
    | cons c cs ih =>
      intro o
      obtain ⟨h1, h2⟩ := ih (o.Add c.1 c.2)
      rw [ScoredObject.addAll_cons]
      have hg := ScoredObject.Grade_Add o c.1 c.2
      refine ⟨?_, ?_⟩
      · rw [h1, ScoredObject.Add_ignoredChecks, hg]
        simp only [runningMinimum, List.foldl_cons]
      · refine le_trans h2 ?_
        rw [hg]
        cases GoMap.get? o.ignoredChecks c.2.ID with
        | some u => exact le_refl _
        | none => exact min_le_left _ _
  exact ⟨hmin, hmin ▸ min_le_left _ _, (hrun calls so).1, (hrun calls so).2⟩

theorem Grade_Add_eq_min_witness :
    GoMap.get? exScored.ignoredChecks (exCheck "check-c").ID = none ∧
    exScored.Grade = 5 ∧
    (exScored.Add (exScore GradeCritical) (exCheck "check-c")).Grade = 1 ∧
    ((exScored.Add (exScore GradeCritical) (exCheck "check-c")).Grade
        = min exScored.Grade (exScore GradeCritical).Grade ∧
      (exScored.Add (exScore GradeCritical) (exCheck "check-c")).Grade ≤ exScored.Grade ∧
      (exScored.addAll exCalls).Grade
        = runningMinimum exScored.ignoredChecks exScored.Grade exCalls ∧
      (exScored.addAll exCalls).Grade ≤ exScored.Grade) :=
  ⟨by decide, by decide, by decide,
    Grade_Add_eq_min exScored (exScore GradeCritical) (exCheck "check-c") exCalls (by decide)⟩

/-- C19: below `GradeAllOK` (10) the threshold query and the grade agree,
`AnyBelowOrEqualToGrade(threshold)` is true exactly when `Grade()` is at most
the threshold; from `GradeAllOK` on, `Grade()` is always at most the
threshold, and the two disagree exactly when the record has no outcome at or
below the threshold; on a record without outcomes `Grade()` is `GradeAllOK`
and `AnyBelowOrEqualToGrade` is false. -/
theorem AnyBelowOrEqualToGrade_iff_Grade_le (so : ScoredObject) (threshold : Grade)
    (tm : TypeMeta) (om : ObjectMeta) (ignored : GoMap Unit) :
    (threshold < GradeAllOK →
      (so.AnyBelowOrEqualToGrade threshold = true ↔ so.Grade ≤ threshold)) ∧
    (GradeAllOK ≤ threshold →
      so.Grade ≤ threshold ∧
      (¬ (so.AnyBelowOrEqualToGrade threshold = true ↔ so.Grade ≤ threshold) ↔
        ¬ ∃ s ∈ so.Checks, s.Grade ≤ threshold)) ∧
    ScoredObject.Grade
      { TypeMeta := tm, ObjectMeta := om, Checks := [], ignoredChecks := ignored }
      = GradeAllOK ∧
    ScoredObject.AnyBelowOrEqualToGrade
      { TypeMeta := tm, ObjectMeta := om, Checks := [], ignoredChecks := ignored } threshold
      = false := by
  refine ⟨?_, ?_, rfl, rfl⟩
  · intro hlt
    rw [ScoredObject.AnyBelowOrEqualToGrade_eq_true_iff]
    constructor
    · rintro ⟨s, hs, hle⟩
      exact le_trans (so.Grade_le_of_mem s hs) hle
    · intro hle
      rcases so.Grade_eq_or_mem with hg | ⟨s, hs, hg⟩
      · rw [hg] at hle
        exact absurd hlt (not_lt.mpr hle)
      · exact ⟨s, hs, hg ▸ hle⟩
  · intro hge
    have hle : so.Grade ≤ threshold := le_trans so.Grade_le_AllOK hge
    refine ⟨hle, ?_⟩
    rw [ScoredObject.AnyBelowOrEqualToGrade_eq_true_iff]
    constructor
    · intro hne hex
      exact hne ⟨fun _ => hle, fun _ => hex⟩
    · intro hno hiff
      exact hno (hiff.mpr hle)

theorem AnyBelowOrEqualToGrade_iff_Grade_le_witness :
    (GradeWarning < GradeAllOK ∧
      (exScored.AnyBelowOrEqualToGrade GradeWarning = true ↔ exScored.Grade ≤ GradeWarning)) ∧
    (GradeAllOK ≤ GradeAllOK ∧ exObject.Grade ≤ GradeAllOK ∧
      (¬ (exObject.AnyBelowOrEqualToGrade GradeAllOK = true ↔ exObject.Grade ≤ GradeAllOK) ↔
        ¬ ∃ s ∈ exObject.Checks, s.Grade ≤ GradeAllOK)) :=
  ⟨⟨by decide,
      (AnyBelowOrEqualToGrade_iff_Grade_le exScored GradeWarning exTypeMeta exObjectMeta []).1
        (by decide)⟩,
    ⟨by decide,
      (AnyBelowOrEqualToGrade_iff_Grade_le exObject GradeAllOK exTypeMeta exObjectMeta []).2.1
        (by decide)⟩⟩

/-- C20: when every outcome of a record has one of the grades 1, 5, 7 and 10,
`Grade()` is one of the four, and `String`, `Emoji` and `Color` applied to it
return a value; the same holds after any sequence of `Add` calls whose
outcomes carry valid grades. -/
theorem Grade_valid_of_valid_outcomes (so : ScoredObject) (calls : List (TestScore × Check))
    (hso : ∀ s ∈ so.Checks, s.Grade = 1 ∨ s.Grade = 5 ∨ s.Grade = 7 ∨ s.Grade = 10)
    (hcalls : ∀ c ∈ calls, c.1.Grade = 1 ∨ c.1.Grade = 5 ∨ c.1.Grade = 7 ∨ c.1.Grade = 10) :
    (so.Grade = 1 ∨ so.Grade = 5 ∨ so.Grade = 7 ∨ so.Grade = 10) ∧
    (Grade.String so.Grade).isSome = true ∧
    (Grade.Emoji so.Grade).isSome = true ∧
    (Grade.Color so.Grade).isSome = true ∧
    ((so.addAll calls).Grade = 1 ∨ (so.addAll calls).Grade = 5 ∨ (so.addAll calls).Grade = 7 ∨
      (so.addAll calls).Grade = 10) ∧
    (Grade.String (so.addAll calls).Grade).isSome = true ∧
    (Grade.Emoji (so.addAll calls).Grade).isSome = true ∧
    (Grade.Color (so.addAll calls).Grade).isSome = true := by
  have hvalid : ∀ o : ScoredObject,
      (∀ s ∈ o.Checks, s.Grade = 1 ∨ s.Grade = 5 ∨ s.Grade = 7 ∨ s.Grade = 10) →
      (o.Grade = 1 ∨ o.Grade = 5 ∨ o.Grade = 7 ∨ o.Grade = 10) := by
    intro o ho
    rcases o.Grade_eq_or_mem with hg | ⟨s, hs, hg⟩
    · exact Or.inr (Or.inr (Or.inr hg))
    · rw [hg]
      exact ho s hs
  have hdisplay : ∀ g : Grade, (g = 1 ∨ g = 5 ∨ g = 7 ∨ g = 10) →
      (Grade.String g).isSome = true ∧ (Grade.Emoji g).isSome = true ∧
        (Grade.Color g).isSome = true := by
    intro g hg
    rcases hg with hg | hg | hg | hg <;> subst hg <;> exact ⟨rfl, rfl, rfl⟩
  have hall : ∀ s ∈ (so.addAll calls).Checks,
      s.Grade = 1 ∨ s.Grade = 5 ∨ s.Grade = 7 ∨ s.Grade = 10 := by
    intro s hs
    rw [ScoredObject.addAll_Checks] at hs
    rcases List.mem_append.mp hs with hs | hs
    · exact hso s hs
    · obtain ⟨c, hc, rfl⟩ := List.mem_map.mp hs
      exact hcalls c (List.mem_of_mem_filter hc)
  have h1 := hvalid so hso
  have h2 := hvalid (so.addAll calls) hall
  obtain ⟨a1, a2, a3⟩ := hdisplay so.Grade h1
  obtain ⟨b1, b2, b3⟩ := hdisplay (so.addAll calls).Grade h2
  exact ⟨h1, a1, a2, a3, h2, b1, b2, b3⟩

theorem Grade_valid_of_valid_outcomes_witness :
    (∀ s ∈ exScored.Checks, s.Grade = 1 ∨ s.Grade = 5 ∨ s.Grade = 7 ∨ s.Grade = 10) ∧
    (∀ c ∈ exCalls, c.1.Grade = 1 ∨ c.1.Grade = 5 ∨ c.1.Grade = 7 ∨ c.1.Grade = 10) ∧
    Grade.String exScored.Grade = some "WARNING" ∧
    ((exScored.Grade = 1 ∨ exScored.Grade = 5 ∨ exScored.Grade = 7 ∨ exScored.Grade = 10) ∧
    (Grade.String exScored.Grade).isSome = true ∧
    (Grade.Emoji exScored.Grade).isSome = true ∧
    (Grade.Color exScored.Grade).isSome = true ∧
    ((exScored.addAll exCalls).Grade = 1 ∨ (exScored.addAll exCalls).Grade = 5 ∨
      (exScored.addAll exCalls).Grade = 7 ∨ (exScored.addAll exCalls).Grade = 10) ∧
    (Grade.String (exScored.addAll exCalls).Grade).isSome = true ∧
    (Grade.Emoji (exScored.addAll exCalls).Grade).isSome = true ∧
    (Grade.Color (exScored.addAll exCalls).Grade).isSome = true) :=
  ⟨by decide, by decide, by decide,
    Grade_valid_of_valid_outcomes exScored exCalls (by decide) (by decide)⟩

end KubeScore
